import Mathlib

/-!
# Verification of the crop-target approval workflow

Shallow embedding of the crop-target approval workflow of the backend
repository, together with proofs of the specification's testable
properties.

The repository contains two parallel implementations (acknowledged as
duplicated in the spec's design notes):

* **System A** — the SQLAlchemy/FastAPI stack: `models/crop_target.py`,
  `models/audit_log.py`, `services/base_service.py`,
  `services/crop_target_service.py`, routed by `server_new.py`.
* **System B** — the Flask stack: `vo/services.py`, `bo/services.py`,
  `vo/schemas.py`, `bo/schemas.py`, routed by `vo/routes.py` and
  `bo/routes.py`, over the `CropTarget` table declared in `server.py`
  (the declaration whose columns — `crop`, `village`, `variety`, `date`,
  `rejection_comments` — match the fields these services and schemas
  read and write).

Conventions of the embedding:

* opaque ids (UUIDs) are `Nat`; timestamps (`datetime.utcnow()`) are `Nat`
  parameters named `now`;
* SQL `Numeric`/`Float` columns are `Rat` (exact arithmetic in place of
  the numeric tower of the storage layer);
* a SQLAlchemy session is modelled by computing the post-transaction
  database in full and applying it atomically at the single `db.commit()`
  call site; a `commitOk` flag models a storage failure at that commit,
  in which case the original database is kept (rollback);
* Python truthiness of strings/optionals (`if remarks:`, `if not comments:`)
  is modelled explicitly by `optStrTruthy`;
* HTTP-level error rendering is abstracted into the spec's stable error
  taxonomy `Err` (403 → `permissionDenied`, 404 → `notFound`,
  validation failures → `validationError`, illegal-transition
  `ValueError`s → `invalidState`).
-/

/-- The spec's stable error taxonomy (§7), as surfaced by the routes. -/
inductive Err where
  | validationError
  | permissionDenied
  | notFound
  | invalidState
  | internal
deriving DecidableEq, Repr

/-- An authenticated principal: id plus role tag, with the district/state
attributes `server_new.py`'s create route copies onto new records. -/
structure Caller where
  id : Nat
  role : String
  district : String := ""
  state : String := ""
deriving DecidableEq, Repr

/-- Python truthiness of an optional string (`None` and `""` are falsy). -/
def optStrTruthy : Option String → Bool
  | none => false
  | some s => !(s == "")

/-- Python truthiness of an optional numeric (`None` and `0` are falsy). -/
def optRatTruthy : Option Rat → Bool
  | none => false
  | some q => !(q == 0)

/-- `app/utils.py` / `server_new.py` `require_role`: allow when the
caller's role is in the allowed list. -/
def require_role (allowed : List String) (c : Caller) : Bool :=
  allowed.contains c.role

/-- Render an optional `Nat` the way the audit payloads carry it. -/
def showOptNat : Option Nat → String
  | none => "None"
  | some n => toString n

/-! ## System A: the SQLAlchemy model (`models/crop_target.py`) -/

/-- `models/crop_target.py` `CropTarget` plus the `models/base.py`
`BaseModel` columns (`id`, `created_at`, `updated_at`, `is_active`).
`created_at`/`updated_at` are server-side column defaults; the service
code never assigns them, so the embedding carries them unchanged. -/
structure CropTargetA where
  id : Nat
  year : Int
  season : String
  district : String
  state : String
  village : String
  crop_name : String
  crop_variety : Option String
  crop_category : Option String
  cultivable_area : Rat
  target_area : Rat
  target_yield : Option Rat
  expected_production : Option Rat
  status : String
  submitted_by : Nat
  submitted_at : Option Nat
  approved_by : Option Nat
  approved_at : Option Nat
  remarks : Option String
  rejection_reason : Option String
  internal_notes : Option String
  priority : String
  is_active : Bool
  created_at : Nat
  updated_at : Nat
deriving DecidableEq, Repr

/-- `CropTarget.submit_for_approval`: change status from draft to
submitted, recording the submission time; no-op from any other status. -/
def CropTargetA.submit_for_approval (r : CropTargetA) (now : Nat) : CropTargetA :=
  if r.status == "draft" then
    { r with status := "submitted", submitted_at := some now }
  else r

/-- `CropTarget.approve`: set status, approver and approval time;
remarks are stored only when truthy (`if remarks:`). -/
def CropTargetA.approve (r : CropTargetA) (approver_id : Nat)
    (remarks : Option String) (now : Nat) : CropTargetA :=
  let r' := { r with status := "approved", approved_by := some approver_id,
                     approved_at := some now }
  if optStrTruthy remarks then { r' with remarks := remarks } else r'

/-- `CropTarget.reject`: set status rejected, approver, approval time and
the rejection reason. -/
def CropTargetA.reject (r : CropTargetA) (approver_id : Nat)
    (reason : String) (now : Nat) : CropTargetA :=
  { r with status := "rejected", approved_by := some approver_id,
           approved_at := some now, rejection_reason := some reason }

/-- `CropTarget.is_editable`: only drafts can be edited. -/
def CropTargetA.is_editable (r : CropTargetA) : Bool :=
  r.status == "draft"

/-- `CropTarget.is_pending_approval`: status in `['submitted', 'pending']`. -/
def CropTargetA.is_pending_approval (r : CropTargetA) : Bool :=
  r.status == "submitted" || r.status == "pending"

/-- `CropTarget.calculate_metrics`: when `target_area` and `target_yield`
are both truthy, derive `expected_production = target_area * target_yield`. -/
def CropTargetA.calculate_metrics (r : CropTargetA) : CropTargetA :=
  match r.target_yield with
  | some y =>
      if !(r.target_area == 0) && !(y == 0) then
        { r with expected_production := some (r.target_area * y) }
      else r
  | none => r

/-- `models/audit_log.py` `AuditLog` row (the request-context columns the
workflow call sites leave `None` are omitted; old/new value snapshots are
carried as rendered key-value lists). -/
structure AuditEntry where
  user_id : Option Nat
  action : String
  resource_type : String
  resource_id : Option Nat
  old_values : Option (List (String × String))
  new_values : Option (List (String × String))
  description : Option String
deriving DecidableEq, Repr

/-- The database visible to System A: the `crop_targets` table, the
append-only `audit_logs` table, and the surrogate-id generator. -/
structure DBA where
  targets : List CropTargetA
  audits : List AuditEntry
  nextId : Nat
deriving Repr

/-- `AuditLog.log_action`: append one audit row to the session. -/
def AuditLog.log_action (db : DBA) (user_id : Option Nat)
    (action resource_type : String) (resource_id : Option Nat)
    (old_values new_values : Option (List (String × String)))
    (description : Option String) : DBA :=
  { db with audits := db.audits ++
      [{ user_id := user_id, action := action, resource_type := resource_type,
         resource_id := resource_id, old_values := old_values,
         new_values := new_values, description := description }] }

/-- Single-row write-back of a mutated ORM object (the session flushes the
dirty row keyed by its primary key). -/
def DBA.replaceTarget (db : DBA) (r : CropTargetA) : DBA :=
  { db with targets := db.targets.map (fun t => if t.id == r.id then r else t) }

/-! ## System A: `services/base_service.py` -/

/-- One `(field, value)` entry of the dynamic filter dict consumed by
`BaseService.get_all` / `BaseService.count` (`getattr(model, field) == value`
for each provided entry). -/
inductive FieldValA where
  | year (v : Int)
  | season (v : String)
  | district (v : String)
  | state (v : String)
  | village (v : String)
  | crop_name (v : String)
  | crop_category (v : String)
  | status (v : String)
  | submitted_by (v : Nat)
  | priority (v : String)
deriving DecidableEq, Repr

/-- Equality match of one filter entry against a row. -/
def FieldValA.matches : FieldValA → CropTargetA → Bool
  | .year v, r => r.year == v
  | .season v, r => r.season == v
  | .district v, r => r.district == v
  | .state v, r => r.state == v
  | .village v, r => r.village == v
  | .crop_name v, r => r.crop_name == v
  | .crop_category v, r => r.crop_category == some v
  | .status v, r => r.status == v
  | .submitted_by v, r => r.submitted_by == v
  | .priority v, r => r.priority == v

/-- The filter dict: a list of `(field, value)` equality constraints. -/
abbrev FiltersA := List FieldValA

/-- Conjunction of all provided filter entries. -/
def FiltersA.matchesAll (fs : FiltersA) (r : CropTargetA) : Bool :=
  fs.all (fun f => f.matches r)

/-- `BaseService.get`: single row by id, restricted to active rows. -/
def BaseService.get (db : DBA) (id : Nat) : Option CropTargetA :=
  db.targets.find? (fun r => r.id == id && r.is_active)

/-- `BaseService.get_by_field`: first active row whose given attribute
equals the given value (`getattr` embedded as a field selector). -/
def BaseService.get_by_field {α : Type} [BEq α] (db : DBA)
    (field : CropTargetA → α) (value : α) : Option CropTargetA :=
  db.targets.find? (fun r => field r == value && r.is_active)

/-- Rows passing the active flag and the filter dict, in table order. -/
def BaseService.filtered (db : DBA) (filters : FiltersA) : List CropTargetA :=
  db.targets.filter (fun r => r.is_active && filters.matchesAll r)

/-- The default ordering of `BaseService.get_all`: `created_at`
descending (the routes in scope never pass an `order_by` override). -/
def BaseService.ordered (db : DBA) (filters : FiltersA) : List CropTargetA :=
  (BaseService.filtered db filters).mergeSort (fun a b => decide (b.created_at ≤ a.created_at))

/-- `BaseService.get_all`: filtered rows, ordered, with offset/limit. -/
def BaseService.get_all (db : DBA) (skip limit : Nat) (filters : FiltersA) :
    List CropTargetA :=
  ((BaseService.ordered db filters).drop skip).take limit

/-- `BaseService.count`: number of rows matching the same predicate. -/
def BaseService.count (db : DBA) (filters : FiltersA) : Nat :=
  (BaseService.filtered db filters).length

/-- The pagination envelope built by `BaseService.get_paginated`. -/
structure PaginatedA where
  items : List CropTargetA
  total : Nat
  page : Nat
  per_page : Nat
  pages : Nat
  has_next : Bool
  has_prev : Bool
deriving Repr

/-- `BaseService.get_paginated`: one page of results plus metadata. -/
def BaseService.get_paginated (db : DBA) (page per_page : Nat)
    (filters : FiltersA) : PaginatedA :=
  let skip := (page - 1) * per_page
  let items := BaseService.get_all db skip per_page filters
  let total := BaseService.count db filters
  { items := items, total := total, page := page, per_page := per_page,
    pages := (total + per_page - 1) / per_page,
    has_next := decide (page * per_page < total),
    has_prev := decide (1 < page) }

/-- The update payload accepted by the `server_new.py` update route
(`CropTargetUpdate`; unset fields are absent from the update dict). -/
structure UpdateA where
  year : Option Int := none
  season : Option String := none
  village : Option String := none
  crop_name : Option String := none
  crop_variety : Option String := none
  cultivable_area : Option Rat := none
  target_area : Option Rat := none
  target_yield : Option Rat := none
  remarks : Option String := none
deriving DecidableEq, Repr

/-- `CropTargetUpdate` pydantic validation (field ranges). -/
def UpdateA.valid (u : UpdateA) : Bool :=
  (match u.year with | none => true | some y => 2020 ≤ y && y ≤ 2030) &&
  (match u.season with | none => true | some s => 1 ≤ s.length && s.length ≤ 50) &&
  (match u.village with | none => true | some s => 1 ≤ s.length && s.length ≤ 100) &&
  (match u.crop_name with | none => true | some s => 1 ≤ s.length && s.length ≤ 100) &&
  (match u.crop_variety with | none => true | some s => s.length ≤ 100) &&
  (match u.cultivable_area with | none => true | some q => 0 < q && q ≤ 10000) &&
  (match u.target_area with | none => true | some q => 0 < q && q ≤ 10000) &&
  (match u.target_yield with | none => true | some q => 0 < q && q ≤ 100) &&
  (match u.remarks with | none => true | some s => s.length ≤ 1000)

/-- Field application loop of `BaseService.update` (`setattr` for each
non-`None` entry of the update dict). -/
def CropTargetA.applyUpdate (r : CropTargetA) (u : UpdateA) : CropTargetA :=
  { r with
    year := u.year.getD r.year,
    season := u.season.getD r.season,
    village := u.village.getD r.village,
    crop_name := u.crop_name.getD r.crop_name,
    crop_variety := (match u.crop_variety with | none => r.crop_variety | some v => some v),
    cultivable_area := u.cultivable_area.getD r.cultivable_area,
    target_area := u.target_area.getD r.target_area,
    target_yield := (match u.target_yield with | none => r.target_yield | some v => some v),
    remarks := (match u.remarks with | none => r.remarks | some v => some v) }

/-- Rendering of a full row for the `old_values` audit snapshot
(`db_obj.to_dict()`). -/
def CropTargetA.renderRow (r : CropTargetA) : List (String × String) :=
  [("id", toString r.id), ("year", toString r.year), ("season", r.season),
   ("district", r.district), ("state", r.state), ("village", r.village),
   ("crop_name", r.crop_name), ("status", r.status),
   ("submitted_by", toString r.submitted_by),
   ("submitted_at", showOptNat r.submitted_at),
   ("approved_by", showOptNat r.approved_by),
   ("approved_at", showOptNat r.approved_at),
   ("is_active", toString r.is_active)]

/-- Rendering of the update dict for the `new_values` audit snapshot. -/
def UpdateA.render (u : UpdateA) : List (String × String) :=
  (match u.year with | none => [] | some y => [("year", toString y)]) ++
  (match u.season with | none => [] | some s => [("season", s)]) ++
  (match u.village with | none => [] | some s => [("village", s)]) ++
  (match u.crop_name with | none => [] | some s => [("crop_name", s)]) ++
  (match u.crop_variety with | none => [] | some s => [("crop_variety", s)]) ++
  (match u.cultivable_area with | none => [] | some q => [("cultivable_area", toString q)]) ++
  (match u.target_area with | none => [] | some q => [("target_area", toString q)]) ++
  (match u.target_yield with | none => [] | some q => [("target_yield", toString q)]) ++
  (match u.remarks with | none => [] | some s => [("remarks", s)])

/-- `BaseService.update`: load the active row, apply the update dict,
log an UPDATE audit entry with old/new values, commit. On a storage
failure at commit (`commitOk = false`) the transaction rolls back whole. -/
def BaseService.update (db : DBA) (id : Nat) (u : UpdateA)
    (user_id : Option Nat) (commitOk : Bool) : Option CropTargetA × DBA :=
  match BaseService.get db id with
  | none => (none, db)
  | some r =>
      let r' := r.applyUpdate u
      let pending := db.replaceTarget r'
      let pending :=
        match user_id with
        | some uid =>
            AuditLog.log_action pending (some uid) "UPDATE" "CropTarget"
              (some r.id) (some r.renderRow) (some u.render) none
        | none => pending
      if commitOk then (some r', pending) else (none, db)

/-- `BaseService.soft_delete`: load the active row, set `is_active=False`,
log a DELETE audit entry, commit. -/
def BaseService.soft_delete (db : DBA) (id : Nat)
    (user_id : Option Nat) (commitOk : Bool) : Option CropTargetA × DBA :=
  match BaseService.get db id with
  | none => (none, db)
  | some r =>
      let r' := { r with is_active := false }
      let pending := db.replaceTarget r'
      let pending :=
        match user_id with
        | some uid =>
            AuditLog.log_action pending (some uid) "DELETE" "CropTarget"
              (some r.id) (some r.renderRow) none none
        | none => pending
      if commitOk then (some r', pending) else (none, db)

/-! ## System A: `services/crop_target_service.py` -/

/-- The create payload accepted by the `server_new.py` create route
(`CropTargetCreate`), with the `district`/`state` entries the route
injects from the current user before calling the service. -/
structure CreateA where
  year : Int
  season : String
  district : String
  state : String
  village : String
  crop_name : String
  crop_variety : Option String := none
  cultivable_area : Rat
  target_area : Rat
  target_yield : Option Rat := none
  remarks : Option String := none
deriving DecidableEq, Repr

/-- `CropTargetCreate` pydantic validation (field ranges). -/
def CreateA.valid (d : CreateA) : Bool :=
  (2020 ≤ d.year && d.year ≤ 2030) &&
  (1 ≤ d.season.length && d.season.length ≤ 50) &&
  (1 ≤ d.district.length && d.district.length ≤ 100) &&
  (1 ≤ d.state.length && d.state.length ≤ 100) &&
  (1 ≤ d.village.length && d.village.length ≤ 100) &&
  (1 ≤ d.crop_name.length && d.crop_name.length ≤ 100) &&
  (match d.crop_variety with | none => true | some s => s.length ≤ 100) &&
  (0 < d.cultivable_area && d.cultivable_area ≤ 10000) &&
  (0 < d.target_area && d.target_area ≤ 10000) &&
  (match d.target_yield with | none => true | some q => 0 < q && q ≤ 100) &&
  (match d.remarks with | none => true | some s => s.length ≤ 1000)

/-- Rendering of the create dict for the `new_values` audit snapshot. -/
def CreateA.render (d : CreateA) (submitter_id : Nat) : List (String × String) :=
  [("year", toString d.year), ("season", d.season), ("district", d.district),
   ("state", d.state), ("village", d.village), ("crop_name", d.crop_name),
   ("cultivable_area", toString d.cultivable_area),
   ("target_area", toString d.target_area),
   ("submitted_by", toString submitter_id)]

/-- The new ORM row built by `CropTargetService.create_crop_target`
(column defaults: status `draft`, priority `medium`, `is_active` true). -/
def CreateA.toRow (d : CreateA) (id submitter_id now : Nat) : CropTargetA :=
  { id := id, year := d.year, season := d.season, district := d.district,
    state := d.state, village := d.village, crop_name := d.crop_name,
    crop_variety := d.crop_variety, crop_category := none,
    cultivable_area := d.cultivable_area, target_area := d.target_area,
    target_yield := d.target_yield, expected_production := none,
    status := "draft", submitted_by := submitter_id, submitted_at := none,
    approved_by := none, approved_at := none, remarks := d.remarks,
    rejection_reason := none, internal_notes := none, priority := "medium",
    is_active := true, created_at := now, updated_at := now }

/-- `CropTargetService.create_crop_target`: build the row, derive
`expected_production`, insert, log a CREATE audit entry, commit. -/
def CropTargetService.create_crop_target (db : DBA) (d : CreateA)
    (submitter_id now : Nat) (commitOk : Bool) : Option CropTargetA × DBA :=
  let target := (d.toRow db.nextId submitter_id now).calculate_metrics
  let pending := { db with targets := db.targets ++ [target], nextId := db.nextId + 1 }
  let pending := AuditLog.log_action pending (some submitter_id) "CREATE"
      "CropTarget" (some target.id) none (some (d.render submitter_id))
      (some ("Created crop target for " ++ d.crop_name))
  if commitOk then (some target, pending) else (none, db)

/-- `CropTargetService.submit_for_approval`: owner-checked draft-only
submission, with a SUBMIT audit entry, committed atomically. -/
def CropTargetService.submit_for_approval (db : DBA) (target_id submitter_id : Nat)
    (now : Nat) (commitOk : Bool) : Option CropTargetA × DBA :=
  match BaseService.get db target_id with
  | none => (none, db)
  | some target =>
      if !(target.submitted_by == submitter_id) then (none, db)
      else if !(target.status == "draft") then (none, db)
      else
        let old_status := target.status
        let target' := target.submit_for_approval now
        let pending := db.replaceTarget target'
        let pending := AuditLog.log_action pending (some submitter_id) "SUBMIT"
            "CropTarget" (some target'.id)
            (some [("status", old_status)])
            (some [("status", target'.status),
                   ("submitted_at", showOptNat target'.submitted_at)])
            (some ("Submitted crop target " ++ target'.crop_name ++ " for approval"))
        if commitOk then (some target', pending) else (none, db)

/-- `CropTargetService.approve_target`: approve a record that is pending
approval, with an APPROVE audit entry, committed atomically. -/
def CropTargetService.approve_target (db : DBA) (target_id approver_id : Nat)
    (remarks : Option String) (now : Nat) (commitOk : Bool) :
    Option CropTargetA × DBA :=
  match BaseService.get db target_id with
  | none => (none, db)
  | some target =>
      if !target.is_pending_approval then (none, db)
      else
        let old_status := target.status
        let target' := target.approve approver_id remarks now
        let pending := db.replaceTarget target'
        let pending := AuditLog.log_action pending (some approver_id) "APPROVE"
            "CropTarget" (some target'.id)
            (some [("status", old_status)])
            (some [("status", "approved"), ("approved_by", toString approver_id),
                   ("approved_at", showOptNat target'.approved_at)])
            (some ("Approved crop target " ++ target'.crop_name))
        if commitOk then (some target', pending) else (none, db)

/-- `CropTargetService.reject_target`: reject a record that is pending
approval, with a REJECT audit entry, committed atomically. -/
def CropTargetService.reject_target (db : DBA) (target_id approver_id : Nat)
    (reason : String) (now : Nat) (commitOk : Bool) :
    Option CropTargetA × DBA :=
  match BaseService.get db target_id with
  | none => (none, db)
  | some target =>
      if !target.is_pending_approval then (none, db)
      else
        let old_status := target.status
        let target' := target.reject approver_id reason now
        let pending := db.replaceTarget target'
        let pending := AuditLog.log_action pending (some approver_id) "REJECT"
            "CropTarget" (some target'.id)
            (some [("status", old_status)])
            (some [("status", "rejected"), ("rejection_reason", reason)])
            (some ("Rejected crop target " ++ target'.crop_name ++ ": " ++ reason))
        if commitOk then (some target', pending) else (none, db)

/-- Case-insensitive substring match (`column.ilike(f"%{value}%")`). -/
def ilikeContains (column pat : String) : Bool :=
  decide (pat.toLower.data <:+: column.toLower.data)

/-- The filter dict accepted by `CropTargetService.get_pending_approvals`
(`year`/`season` exact, `district`/`village`/`crop_name` via `ilike`). -/
structure PendingFiltersA where
  year : Option Int := none
  season : Option String := none
  district : Option String := none
  village : Option String := none
  crop_name : Option String := none
deriving DecidableEq, Repr

/-- Match of the pending-approvals filter dict against a row. -/
def PendingFiltersA.matches (f : PendingFiltersA) (r : CropTargetA) : Bool :=
  (match f.year with | none => true | some v => r.year == v) &&
  (match f.season with | none => true | some v => r.season == v) &&
  (match f.district with | none => true | some v => ilikeContains r.district v) &&
  (match f.village with | none => true | some v => ilikeContains r.village v) &&
  (match f.crop_name with | none => true | some v => ilikeContains r.crop_name v)

/-- `CropTargetService.get_pending_approvals`: active rows with status in
`['submitted', 'pending']`, filtered, ordered by `submitted_at`
descending, with offset/limit. -/
def CropTargetService.get_pending_approvals (db : DBA) (skip limit : Nat)
    (filters : PendingFiltersA) : List CropTargetA :=
  let l := db.targets.filter
      (fun r => (r.status == "submitted" || r.status == "pending") &&
                r.is_active && filters.matches r)
  let l := l.mergeSort (fun a b => decide (b.submitted_at.getD 0 ≤ a.submitted_at.getD 0))
  (l.drop skip).take limit

/-! ## System A: the `server_new.py` routes -/

/-- The `ApprovalRequest` body of the approve/reject endpoint. -/
structure ApprovalRequest where
  action : String
  remarks : Option String := none
  rejection_reason : Option String := none
deriving DecidableEq, Repr

/-- `ApprovalRequest` pydantic validation (`action` regex, lengths). -/
def ApprovalRequest.valid (b : ApprovalRequest) : Bool :=
  (b.action == "approve" || b.action == "reject") &&
  (match b.remarks with | none => true | some s => s.length ≤ 1000) &&
  (match b.rejection_reason with | none => true | some s => s.length ≤ 1000)

/-- The `server_new.py` create route's injection of the caller's
district and state into the create payload. -/
def CreateA.withCallerLoc (d : CreateA) (c : Caller) : CreateA :=
  { d with district := c.district, state := c.state }

/-- `POST /api/v1/vo/crop-targets` (`server_new.py`): `VO`-gated create
of the location-injected, validated payload. -/
def RouteA.create (db : DBA) (c : Caller) (d : CreateA) (now : Nat) :
    Except Err (CropTargetA × DBA) :=
  if !require_role ["VO"] c then .error .permissionDenied
  else if !(d.withCallerLoc c).valid then .error .validationError
  else
    match CropTargetService.create_crop_target db (d.withCallerLoc c) c.id now true with
    | (some t, db') => .ok (t, db')
    | (none, _) => .error .internal

/-- `PUT /api/v1/vo/crop-targets/{id}` (`server_new.py`): `VO`-gated
update; another submitter's record (or a missing one) is a 404, a
non-draft is a 400. -/
def RouteA.update (db : DBA) (c : Caller) (target_id : Nat) (u : UpdateA) :
    Except Err (CropTargetA × DBA) :=
  if !require_role ["VO"] c then .error .permissionDenied
  else if !u.valid then .error .validationError
  else
    match BaseService.get db target_id with
    | none => .error .notFound
    | some target =>
        if !(target.submitted_by == c.id) then .error .notFound
        else if !target.is_editable then .error .invalidState
        else
          match BaseService.update db target_id u (some c.id) true with
          | (some t, db') => .ok (t, db')
          | (none, _) => .error .internal

/-- `POST /api/v1/vo/crop-targets/{id}/submit` (`server_new.py`):
`VO`-gated submission; a `None` from the service is a 404 ("not found or
cannot be submitted"). -/
def RouteA.submit (db : DBA) (c : Caller) (target_id now : Nat) :
    Except Err (CropTargetA × DBA) :=
  if !require_role ["VO"] c then .error .permissionDenied
  else
    match CropTargetService.submit_for_approval db target_id c.id now true with
    | (some t, db') => .ok (t, db')
    | (none, _) => .error .notFound

/-- `POST /api/v1/bo/crop-targets/{id}/approve` (`server_new.py`):
`BO`-gated approve/reject; rejecting without a truthy reason is a 400;
a `None` from the service is a 404 ("not found or not pending approval"). -/
def RouteA.approve (db : DBA) (c : Caller) (target_id : Nat)
    (b : ApprovalRequest) (now : Nat) : Except Err (CropTargetA × DBA) :=
  if !require_role ["BO"] c then .error .permissionDenied
  else if !b.valid then .error .validationError
  else if b.action == "approve" then
    match CropTargetService.approve_target db target_id c.id b.remarks now true with
    | (some t, db') => .ok (t, db')
    | (none, _) => .error .notFound
  else
    if !optStrTruthy b.rejection_reason then .error .validationError
    else
      match CropTargetService.reject_target db target_id c.id
          (b.rejection_reason.getD "") now true with
      | (some t, db') => .ok (t, db')
      | (none, _) => .error .notFound

/-- `DELETE` is not exposed for crop targets by `server_new.py`; the
service-level `soft_delete` is embedded above for the frame claims. -/
def RouteA.softDelete (db : DBA) (c : Caller) (target_id : Nat) :
    Except Err (CropTargetA × DBA) :=
  if !require_role ["VO"] c then .error .permissionDenied
  else
    match BaseService.soft_delete db target_id (some c.id) true with
    | (some t, db') => .ok (t, db')
    | (none, _) => .error .notFound

/-! ## System B: the Flask stack (`vo/`, `bo/`, model from `server.py`) -/

/-- The `CropTarget` table declared in `server.py`, which carries the
columns the `vo/`/`bo/` services and schemas read and write
(`crop`, `village`, `variety`, `date`, `rejection_comments`). -/
structure CropTargetB where
  id : Nat
  year : Int
  season : String
  village : String
  crop : String
  variety : String
  target_area : Rat
  date : Nat
  status : String
  rejection_comments : Option String
  submitted_by : Nat
  submitted_at : Option Nat
  approved_by : Option Nat
  approved_at : Option Nat
  created_at : Nat
  updated_at : Nat
deriving DecidableEq, Repr

/-- Modelled from the spec: the `can_edit` property read by
`VOService.update_crop_target` is not defined on any model under `src/`;
the spec states "A record is editable only while status is `draft`". -/
def CropTargetB.can_edit (r : CropTargetB) : Bool :=
  r.status == "draft"

/-- Modelled from the spec: the `can_delete` property read by
`VOService.delete_crop_target` is not defined on any model under `src/`;
the spec states deletion "requires status `draft`". -/
def CropTargetB.can_delete (r : CropTargetB) : Bool :=
  r.status == "draft"

/-- The database visible to System B: the `crop_targets` table, the
(never-written) audit table, and the surrogate-id generator. -/
structure DBB where
  targets : List CropTargetB
  audits : List AuditEntry
  nextId : Nat
deriving Repr

/-- Single-row write-back of a mutated ORM object in System B. -/
def DBB.replaceTarget (db : DBB) (r : CropTargetB) : DBB :=
  { db with targets := db.targets.map (fun t => if t.id == r.id then r else t) }

/-- The `VOCreateSchema` payload (`marshmallow`); `status` defaults to
`draft` when missing. -/
structure VOCreateData where
  year : Int
  season : String
  village : String
  crop : String
  variety : String
  target_area : Rat
  date : Nat
  status : String := "draft"
deriving DecidableEq, Repr

/-- `VOCreateSchema` validation: field ranges, `target_area ≥ 0.01`,
`status` one of `draft`/`submitted`. -/
def VOCreateData.valid (d : VOCreateData) : Bool :=
  (2000 ≤ d.year && d.year ≤ 2100) &&
  (1 ≤ d.season.length && d.season.length ≤ 50) &&
  (1 ≤ d.village.length && d.village.length ≤ 100) &&
  (1 ≤ d.crop.length && d.crop.length ≤ 100) &&
  (1 ≤ d.variety.length && d.variety.length ≤ 100) &&
  ((1 : Rat) / 100 ≤ d.target_area) &&
  (d.status == "draft" || d.status == "submitted")

/-- The `VOUpdateSchema` payload: every field optional, no `status` and
no `rejection_comments` field. -/
structure VOUpdateData where
  year : Option Int := none
  season : Option String := none
  village : Option String := none
  crop : Option String := none
  variety : Option String := none
  target_area : Option Rat := none
  date : Option Nat := none
deriving DecidableEq, Repr

/-- `VOUpdateSchema` validation on the provided fields. -/
def VOUpdateData.valid (u : VOUpdateData) : Bool :=
  (match u.year with | none => true | some y => 2000 ≤ y && y ≤ 2100) &&
  (match u.season with | none => true | some s => 1 ≤ s.length && s.length ≤ 50) &&
  (match u.village with | none => true | some s => 1 ≤ s.length && s.length ≤ 100) &&
  (match u.crop with | none => true | some s => 1 ≤ s.length && s.length ≤ 100) &&
  (match u.variety with | none => true | some s => 1 ≤ s.length && s.length ≤ 100) &&
  (match u.target_area with | none => true | some q => (1 : Rat) / 100 ≤ q)

/-- Field application loop of `VOService.update_crop_target`
(`setattr` for each entry of the loaded update dict). -/
def CropTargetB.applyUpdate (r : CropTargetB) (u : VOUpdateData) : CropTargetB :=
  { r with
    year := u.year.getD r.year,
    season := u.season.getD r.season,
    village := u.village.getD r.village,
    crop := u.crop.getD r.crop,
    variety := u.variety.getD r.variety,
    target_area := u.target_area.getD r.target_area,
    date := u.date.getD r.date }

/-- The `BOApprovalSchema` payload. -/
structure BOApprovalData where
  status : String
  rejection_comments : Option String := none
deriving DecidableEq, Repr

/-- `BOApprovalSchema` validation: `status` one of `approved`/`rejected`,
comments at most 1000 characters, and `validate_rejection`: rejecting
with falsy (`None` or empty) comments raises `ValidationError`. -/
def BOApprovalData.valid (d : BOApprovalData) : Bool :=
  (d.status == "approved" || d.status == "rejected") &&
  (match d.rejection_comments with | none => true | some s => s.length ≤ 1000) &&
  !(d.status == "rejected" && !optStrTruthy d.rejection_comments)

/-- `VOService.create_crop_target`: insert a new record owned by the
caller; `submitted_at` is set only when created directly as submitted.
No audit entry is written. -/
def VOService.create_crop_target (db : DBB) (d : VOCreateData)
    (user_id now : Nat) : CropTargetB × DBB :=
  let ct : CropTargetB :=
    { id := db.nextId, year := d.year, season := d.season,
      village := d.village, crop := d.crop, variety := d.variety,
      target_area := d.target_area, date := d.date, status := d.status,
      rejection_comments := none, submitted_by := user_id,
      submitted_at := if d.status == "submitted" then some now else none,
      approved_by := none, approved_at := none,
      created_at := now, updated_at := now }
  (ct, { db with targets := db.targets ++ [ct], nextId := db.nextId + 1 })

/-- `VOService.get_crop_target_by_id`: first row matching both the id and
the caller as submitter; a miss (absent id or another owner alike) raises
`ValueError("Crop target not found")`. -/
def VOService.get_crop_target_by_id (db : DBB) (crop_target_id user_id : Nat) :
    Option CropTargetB :=
  db.targets.find? (fun r => r.id == crop_target_id && r.submitted_by == user_id)

/-- `VOService.update_crop_target`: owner-scoped lookup, `can_edit` gate,
field application, and clearing of `rejection_comments` when the record
is in `rejected` status. No audit entry is written. -/
def VOService.update_crop_target (db : DBB) (crop_target_id : Nat)
    (u : VOUpdateData) (user_id : Nat) : Except Err (CropTargetB × DBB) :=
  match VOService.get_crop_target_by_id db crop_target_id user_id with
  | none => .error .notFound
  | some ct =>
      if !ct.can_edit then .error .invalidState
      else
        let ct' := ct.applyUpdate u
        let ct' := if ct'.status == "rejected" then
                     { ct' with rejection_comments := none } else ct'
        .ok (ct', db.replaceTarget ct')

/-- `VOService.resubmit_crop_target`: owner-scoped lookup; only `draft`
or `rejected` records may be (re)submitted; sets status `submitted`, the
submission time, and clears `rejection_comments`. No audit entry is
written. -/
def VOService.resubmit_crop_target (db : DBB) (crop_target_id user_id now : Nat) :
    Except Err (CropTargetB × DBB) :=
  match VOService.get_crop_target_by_id db crop_target_id user_id with
  | none => .error .notFound
  | some ct =>
      if !(ct.status == "draft" || ct.status == "rejected") then .error .invalidState
      else
        let ct' := { ct with status := "submitted", submitted_at := some now,
                             rejection_comments := none }
        .ok (ct', db.replaceTarget ct')

/-- `VOService.delete_crop_target`: owner-scoped lookup, `can_delete`
gate, then hard row deletion. -/
def VOService.delete_crop_target (db : DBB) (crop_target_id user_id : Nat) :
    Except Err DBB :=
  match VOService.get_crop_target_by_id db crop_target_id user_id with
  | none => .error .notFound
  | some ct =>
      if !ct.can_delete then .error .invalidState
      else .ok { db with targets := db.targets.filter (fun r => !(r.id == ct.id)) }

/-- `BOService.approve_crop_target`: primary-key lookup (no owner scope),
`submitted`-only gate, redundant re-check of the rejection comments, then
the decision write: status from the payload, approver id and time, and
`rejection_comments` kept only on rejection. No audit entry is written. -/
def BOService.approve_crop_target (db : DBB) (crop_target_id : Nat)
    (d : BOApprovalData) (approver_id now : Nat) :
    Except Err (CropTargetB × DBB) :=
  match db.targets.find? (fun r => r.id == crop_target_id) with
  | none => .error .notFound
  | some ct =>
      if !(ct.status == "submitted") then .error .invalidState
      else if d.status == "rejected" && !optStrTruthy d.rejection_comments then
        .error .validationError
      else
        let ct' :=
          { ct with status := d.status,
                    approved_by := some approver_id,
                    approved_at := some now,
                    rejection_comments :=
                      if d.status == "rejected" then d.rejection_comments
                      else none }
        .ok (ct', db.replaceTarget ct')

/-! ## System B: the Flask routes (`vo/routes.py`, `bo/routes.py`) -/

/-- `POST /api/v1/vo/crop-targets`: `VO`-gated, schema-validated create. -/
def RouteB.create (db : DBB) (c : Caller) (d : VOCreateData) (now : Nat) :
    Except Err (CropTargetB × DBB) :=
  if !require_role ["VO"] c then .error .permissionDenied
  else if !d.valid then .error .validationError
  else .ok (VOService.create_crop_target db d c.id now)

/-- `GET /api/v1/vo/crop-targets/{id}`: `VO`-gated owner-scoped fetch. -/
def RouteB.get (db : DBB) (c : Caller) (crop_target_id : Nat) :
    Except Err CropTargetB :=
  if !require_role ["VO"] c then .error .permissionDenied
  else
    match VOService.get_crop_target_by_id db crop_target_id c.id with
    | none => .error .notFound
    | some ct => .ok ct

/-- `PUT /api/v1/vo/crop-targets/{id}`: `VO`-gated, schema-validated
owner-scoped update. -/
def RouteB.update (db : DBB) (c : Caller) (crop_target_id : Nat)
    (u : VOUpdateData) : Except Err (CropTargetB × DBB) :=
  if !require_role ["VO"] c then .error .permissionDenied
  else if !u.valid then .error .validationError
  else VOService.update_crop_target db crop_target_id u c.id

/-- `POST /api/v1/vo/crop-targets/{id}/resubmit`: `VO`-gated resubmit. -/
def RouteB.resubmit (db : DBB) (c : Caller) (crop_target_id now : Nat) :
    Except Err (CropTargetB × DBB) :=
  if !require_role ["VO"] c then .error .permissionDenied
  else VOService.resubmit_crop_target db crop_target_id c.id now

/-- `DELETE /api/v1/vo/crop-targets/{id}`: `VO`-gated owner-scoped delete. -/
def RouteB.delete (db : DBB) (c : Caller) (crop_target_id : Nat) :
    Except Err DBB :=
  if !require_role ["VO"] c then .error .permissionDenied
  else VOService.delete_crop_target db crop_target_id c.id

/-- `PUT /api/v1/bo/crop-targets/{id}/approve`: `BO`-gated,
schema-validated approve/reject. -/
def RouteB.approve (db : DBB) (c : Caller) (crop_target_id : Nat)
    (d : BOApprovalData) (now : Nat) : Except Err (CropTargetB × DBB) :=
  if !require_role ["BO"] c then .error .permissionDenied
  else if !d.valid then .error .validationError
  else BOService.approve_crop_target db crop_target_id d c.id now

/-! ## Workflow operation sequences -/

/-- One route-level workflow operation of System A (create, update,
submit, approve/reject, soft delete), with its caller and payload. -/
inductive OpA where
  | create (c : Caller) (d : CreateA) (now : Nat)
  | update (c : Caller) (target_id : Nat) (u : UpdateA)
  | submit (c : Caller) (target_id now : Nat)
  | approve (c : Caller) (target_id : Nat) (b : ApprovalRequest) (now : Nat)
  | softDelete (c : Caller) (target_id : Nat)

/-- Apply one System A operation; on any error the database is unchanged
(the route aborts before any commit). -/
def applyA (db : DBA) : OpA → DBA
  | .create c d now =>
      match RouteA.create db c d now with
      | .ok (_, db') => db' | .error _ => db
  | .update c tid u =>
      match RouteA.update db c tid u with
      | .ok (_, db') => db' | .error _ => db
  | .submit c tid now =>
      match RouteA.submit db c tid now with
      | .ok (_, db') => db' | .error _ => db
  | .approve c tid b now =>
      match RouteA.approve db c tid b now with
      | .ok (_, db') => db' | .error _ => db
  | .softDelete c tid =>
      match RouteA.softDelete db c tid with
      | .ok (_, db') => db' | .error _ => db

/-- Apply a finite sequence of System A operations. -/
def runA (db : DBA) (ops : List OpA) : DBA :=
  ops.foldl applyA db

/-- The stored status of the row with the given id in System A
(regardless of the soft-delete flag). -/
def statusOfA (db : DBA) (target_id : Nat) : Option String :=
  (db.targets.find? (fun r => r.id == target_id)).map (fun r => r.status)

/-- One route-level workflow operation of System B. -/
inductive OpB where
  | create (c : Caller) (d : VOCreateData) (now : Nat)
  | update (c : Caller) (target_id : Nat) (u : VOUpdateData)
  | resubmit (c : Caller) (target_id now : Nat)
  | approve (c : Caller) (target_id : Nat) (d : BOApprovalData) (now : Nat)
  | delete (c : Caller) (target_id : Nat)

/-- Apply one System B operation; on any error the database is unchanged. -/
def applyB (db : DBB) : OpB → DBB
  | .create c d now =>
      match RouteB.create db c d now with
      | .ok (_, db') => db' | .error _ => db
  | .update c tid u =>
      match RouteB.update db c tid u with
      | .ok (_, db') => db' | .error _ => db
  | .resubmit c tid now =>
      match RouteB.resubmit db c tid now with
      | .ok (_, db') => db' | .error _ => db
  | .approve c tid d now =>
      match RouteB.approve db c tid d now with
      | .ok (_, db') => db' | .error _ => db
  | .delete c tid =>
      match RouteB.delete db c tid with
      | .ok db' => db' | .error _ => db

/-- Apply a finite sequence of System B operations. -/
def runB (db : DBB) (ops : List OpB) : DBB :=
  ops.foldl applyB db

/-- The stored status of the row with the given id in System B. -/
def statusOfB (db : DBB) (target_id : Nat) : Option String :=
  (db.targets.find? (fun r => r.id == target_id)).map (fun r => r.status)

/-! ## Concrete fixtures for witnesses and counterexamples -/

/-- An empty System A database. -/
def dbA0 : DBA := { targets := [], audits := [], nextId := 1 }

/-- An empty System B database. -/
def dbB0 : DBB := { targets := [], audits := [], nextId := 1 }

/-- A Village Officer principal. -/
def voC : Caller := { id := 1, role := "VO", district := "D", state := "S" }

/-- A second, distinct Village Officer principal. -/
def voC2 : Caller := { id := 2, role := "VO", district := "D", state := "S" }

/-- A Block Officer principal. -/
def boC : Caller := { id := 9, role := "BO", district := "B", state := "S" }

/-- A valid create payload with a present target yield. -/
def createRice : CreateA :=
  { year := 2024, season := "Kharif", district := "D", state := "S",
    village := "V", crop_name := "Rice", cultivable_area := 10,
    target_area := 2, target_yield := some 3 }

/-- An update payload changing only the target area. -/
def updFive : UpdateA := { target_area := some 5 }

/-- The record produced by creating `createRice` in the empty database. -/
def C6resT : CropTargetA :=
  match RouteA.create dbA0 voC createRice 0 with
  | .ok (t, _) => t
  | .error _ => (createRice.withCallerLoc voC).toRow 0 0 0

/-- The database produced by creating `createRice` in the empty database. -/
def C6resDB : DBA :=
  match RouteA.create dbA0 voC createRice 0 with
  | .ok (_, db') => db'
  | .error _ => dbA0

/-- The record produced by then updating the target area to 5. -/
def C6resT2 : CropTargetA :=
  match RouteA.update C6resDB voC 1 updFive with
  | .ok (t, _) => t
  | .error _ => C6resT

/-- The database produced by then updating the target area to 5. -/
def C6resDB2 : DBA :=
  match RouteA.update C6resDB voC 1 updFive with
  | .ok (_, db') => db'
  | .error _ => C6resDB


/-- A submitted System A record owned by user 1. -/
def rowAsub : CropTargetA :=
  { id := 1, year := 2024, season := "Kharif", district := "D", state := "S",
    village := "V", crop_name := "Rice", crop_variety := none,
    crop_category := none, cultivable_area := 10, target_area := 2,
    target_yield := none, expected_production := none, status := "submitted",
    submitted_by := 1, submitted_at := some 1, approved_by := none,
    approved_at := none, remarks := none, rejection_reason := none,
    internal_notes := none, priority := "medium", is_active := true,
    created_at := 0, updated_at := 0 }

/-- A System A database holding just `rowAsub`. -/
def dbAsub : DBA := { targets := [rowAsub], audits := [], nextId := 2 }

/-- A submitted System B record owned by user 1. -/
def rowBsub : CropTargetB :=
  { id := 1, year := 2024, season := "Kharif", village := "V", crop := "Rice",
    variety := "Basmati", target_area := 2, date := 0, status := "submitted",
    rejection_comments := none, submitted_by := 1, submitted_at := some 1,
    approved_by := none, approved_at := none, created_at := 0, updated_at := 0 }

/-- A System B database holding just `rowBsub`. -/
def dbBsub : DBB := { targets := [rowBsub], audits := [], nextId := 2 }


/-- An approved System B record (terminal for the approval endpoint). -/
def rowBapprov : CropTargetB := { rowBsub with status := "approved" }

/-- A System B database holding just the approved record. -/
def dbBapp : DBB := { targets := [rowBapprov], audits := [], nextId := 2 }

/-- The record produced by approving `rowAsub` as the Block Officer. -/
def C3resT : CropTargetA :=
  match RouteA.approve dbAsub boC 1 ⟨"approve", none, none⟩ 5 with
  | .ok (t, _) => t
  | .error _ => rowAsub

/-- The database produced by approving `rowAsub` as the Block Officer. -/
def C3resDB : DBA :=
  match RouteA.approve dbAsub boC 1 ⟨"approve", none, none⟩ 5 with
  | .ok (_, db') => db'
  | .error _ => dbAsub


/-- A rejected System A record owned by user 1, with its stored reason. -/
def rowArej : CropTargetA :=
  { rowAsub with status := "rejected", approved_by := some 9,
                 approved_at := some 2, rejection_reason := some "too large" }

/-- A System A database holding just the rejected record. -/
def dbArej : DBA := { targets := [rowArej], audits := [], nextId := 2 }

/-- A rejected System B record owned by user 1, with its stored comments. -/
def rowBrej : CropTargetB :=
  { rowBsub with status := "rejected", approved_by := some 9,
                 approved_at := some 2, rejection_comments := some "too large" }

/-- A System B database holding just the rejected record. -/
def dbBrej : DBB := { targets := [rowBrej], audits := [], nextId := 2 }


/-- The record produced by submitting the created draft for approval. -/
def C5subT : CropTargetA :=
  match CropTargetService.submit_for_approval C6resDB 1 1 3 true with
  | (some t, _) => t
  | (none, _) => C6resT

/-- The database produced by submitting the created draft for approval. -/
def C5subDB : DBA :=
  match CropTargetService.submit_for_approval C6resDB 1 1 3 true with
  | (some _, db') => db'
  | (none, _) => C6resDB

/-- The record produced by rejecting the submitted fixture. -/
def C5rejT : CropTargetA :=
  match CropTargetService.reject_target dbAsub 1 9 "too small" 5 true with
  | (some t, _) => t
  | (none, _) => rowAsub

/-- The database produced by rejecting the submitted fixture. -/
def C5rejDB : DBA :=
  match CropTargetService.reject_target dbAsub 1 9 "too small" 5 true with
  | (some _, db') => db'
  | (none, _) => dbAsub


/-- The record produced by soft-deleting the submitted fixture. -/
def C10resT : CropTargetA :=
  match BaseService.soft_delete dbAsub 1 (some 1) true with
  | (some t, _) => t
  | (none, _) => rowAsub

/-- The database produced by soft-deleting the submitted fixture. -/
def C10resDB : DBA :=
  match BaseService.soft_delete dbAsub 1 (some 1) true with
  | (some _, db') => db'
  | (none, _) => dbAsub


/-- Well-formedness of a System A database: primary keys are unique and
below the id generator (as the backing store guarantees). -/
def WFA (db : DBA) : Prop :=
  (db.targets.map (fun r => r.id)).Nodup ∧ ∀ r ∈ db.targets, r.id < db.nextId

/-- Well-formedness of a System B database. -/
def WFB (db : DBB) : Prop :=
  (db.targets.map (fun r => r.id)).Nodup ∧ ∀ r ∈ db.targets, r.id < db.nextId


/-- An approved System A record. -/
def rowAapp : CropTargetA :=
  { rowAsub with status := "approved", approved_by := some 9, approved_at := some 2 }

/-- A System A database holding just the approved record. -/
def dbAapp : DBA := { targets := [rowAapp], audits := [], nextId := 2 }

/-- A draft System A record owned by user 1. -/
def rowAdraft : CropTargetA := { rowAsub with status := "draft", submitted_at := none }

/-- A System A database holding just the draft record. -/
def dbAdraft : DBA := { targets := [rowAdraft], audits := [], nextId := 2 }

/-- A draft System B record owned by user 1. -/
def rowBdraft : CropTargetB := { rowBsub with status := "draft", submitted_at := none }

/-- A System B database holding just the draft record. -/
def dbBdraft : DBB := { targets := [rowBdraft], audits := [], nextId := 2 }


/-- The C8 record invariant for System A: a stored rejection reason
exists exactly on rejected records. -/
def InvA (r : CropTargetA) : Prop :=
  r.rejection_reason ≠ none ↔ r.status = "rejected"

/-- The C8 record invariant for System B. -/
def InvB (r : CropTargetB) : Prop :=
  r.rejection_comments ≠ none ↔ r.status = "rejected"

/-- The record left by rejecting the submitted System A fixture. -/
def C8rowA : CropTargetA :=
  ((runA dbAsub [OpA.approve boC 1 ⟨"reject", none, some "dry"⟩ 5]).targets.head?).getD rowAsub

/-- The record left by resubmitting the rejected System B fixture. -/
def C8rowB : CropTargetB :=
  ((runB dbBrej [OpB.resubmit voC 1 7]).targets.head?).getD rowBsub


/-- Concatenation of all result pages of a paginated listing at a given
page size, from page 1 through the reported page count. -/
def concatPagesA (db : DBA) (filters : FiltersA) (P : Nat) : List CropTargetA :=
  (List.range (BaseService.get_paginated db 1 P filters).pages).flatMap
    (fun i => (BaseService.get_paginated db (i + 1) P filters).items)

/-! ## Helper lemmas and claim theorems -/

/-- A successful create on the canonical route derives
`expected_production = target_area * target_yield` when a yield is given. -/
theorem createA_expected_production (db : DBA) (c : Caller) (d : CreateA)
    (now : Nat) (t : CropTargetA) (db' : DBA)
    (h : RouteA.create db c d now = .ok (t, db'))
    (y : Rat) (hy : d.target_yield = some y) :
    t.expected_production = some (t.target_area * y) := by
  unfold RouteA.create at h
  split at h
  · exact absurd h (by simp)
  · split at h
    · exact absurd h (by simp)
    · rename_i hrole hvalid
      simp only [Bool.not_eq_true', Bool.not_eq_false] at hvalid
      simp [CropTargetService.create_crop_target] at h
      obtain ⟨ht, hdb⟩ := h
      subst ht
      simp only [CreateA.valid, CreateA.withCallerLoc, hy, Bool.and_eq_true,
        decide_eq_true_eq] at hvalid
      have hta : 0 < d.target_area := by tauto
      have hy0 : 0 < y := by tauto
      have hta' : ¬ (d.target_area == 0) = true := by
        simp only [beq_iff_eq]; intro h0; rw [h0] at hta; exact lt_irrefl 0 hta
      have hy0' : ¬ (y == 0) = true := by
        simp only [beq_iff_eq]; intro h0; rw [h0] at hy0; exact lt_irrefl 0 hy0
      simp [CropTargetA.calculate_metrics, CreateA.toRow, CreateA.withCallerLoc,
        hy, hta', hy0']

/-- A successful update on the canonical route carries the stored
`expected_production` over unchanged (`BaseService.update` never calls
`calculate_metrics`). -/
theorem updateA_preserves_expected_production (db : DBA) (c : Caller)
    (tid : Nat) (u : UpdateA) (t : CropTargetA) (db' : DBA) (r : CropTargetA)
    (h : RouteA.update db c tid u = .ok (t, db'))
    (hr : BaseService.get db tid = some r) :
    t.expected_production = r.expected_production := by
  unfold RouteA.update at h
  split at h
  · exact absurd h (by simp)
  · split at h
    · exact absurd h (by simp)
    · rw [hr] at h
      simp only [] at h
      split at h
      · exact absurd h (by simp)
      · split at h
        · exact absurd h (by simp)
        · simp [BaseService.update, hr] at h
          obtain ⟨ht, _⟩ := h
          subst ht
          simp [CropTargetA.applyUpdate]

/-- **C6 counterexample.** Create a record with
`target_area = 2`, `target_yield = 3` (so `expected_production = 6`),
then successfully update `target_area` to `5`: the stored
`expected_production` is still `6`, but `target_area * target_yield`
is now `15` — the claimed recomputation on update does not happen. -/
theorem C6_counterexample :
    ((C6resDB2.targets.find? (fun r => r.id == 1)).map
      (fun r => (r.expected_production, r.target_area, r.target_yield)))
      = some (some 6, 5, some 3)
    ∧ (5 : Rat) * 3 ≠ 6 := by
  constructor
  · norm_num [C6resDB2, C6resDB, applyA, RouteA.create, RouteA.update, dbA0,
      voC, createRice, updFive, require_role, CreateA.valid, UpdateA.valid,
      CreateA.withCallerLoc,
      CropTargetService.create_crop_target, CreateA.toRow, CreateA.render,
      CropTargetA.calculate_metrics, AuditLog.log_action, BaseService.get,
      BaseService.update, CropTargetA.applyUpdate, CropTargetA.is_editable,
      DBA.replaceTarget, CropTargetA.renderRow, UpdateA.render, List.find?]
  · norm_num

/-- **C6 (amended).** After every successful create whose `target_yield`
is present, `expected_production = target_area * target_yield` exactly;
a successful update applies the changed fields without recomputation, so
the stored `expected_production` is carried over unchanged even when
`target_area` or `target_yield` change. -/
theorem C6_expected_production :
    (∀ (db : DBA) (c : Caller) (d : CreateA) (now : Nat) (t : CropTargetA)
       (db' : DBA) (y : Rat), RouteA.create db c d now = .ok (t, db') →
       d.target_yield = some y →
       t.expected_production = some (t.target_area * y))
    ∧ (∀ (db : DBA) (c : Caller) (tid : Nat) (u : UpdateA) (t : CropTargetA)
       (db' : DBA) (r : CropTargetA), RouteA.update db c tid u = .ok (t, db') →
       BaseService.get db tid = some r →
       t.expected_production = r.expected_production) :=
  ⟨fun db c d now t db' y h hy => createA_expected_production db c d now t db' h y hy,
   fun db c tid u t db' r h hr =>
     updateA_preserves_expected_production db c tid u t db' r h hr⟩

/-- Witness for C6: the amended claim applied to the concrete
create-then-update run used in the counterexample. -/
theorem C6_expected_production_witness :
    C6resT.expected_production = some (C6resT.target_area * 3)
    ∧ C6resT2.expected_production = C6resT.expected_production :=
  ⟨C6_expected_production.1 dbA0 voC createRice 0 C6resT C6resDB 3 rfl rfl,
   C6_expected_production.2 C6resDB voC 1 updFive C6resT2 C6resDB2 C6resT rfl rfl⟩

/-- **C2 counterexample.** Rejecting with the whitespace-only reason
`" "` does not fail: in both implementations the truthiness checks
(`not comments`, `not approval_data.rejection_reason`) accept any
non-empty string, the record moves to `rejected`, and the whitespace
reason is stored verbatim. -/
theorem C2_counterexample :
    ((RouteB.approve dbBsub boC 1 ⟨"rejected", some " "⟩ 5).toOption.map
        (fun p => (p.1.status, p.1.rejection_comments))) = some ("rejected", some " ")
    ∧ ((RouteA.approve dbAsub boC 1 ⟨"reject", none, some " "⟩ 5).toOption.map
        (fun p => (p.1.status, p.1.rejection_reason))) = some ("rejected", some " ") :=
  ⟨rfl, rfl⟩

/-- **C2 (amended).** A reject whose reason is missing or the empty
string fails with `ValidationError` in both implementations, with no
state change and no audit entry; a whitespace-only non-empty reason is
accepted (see the counterexample). -/
theorem C2_reject_empty_reason :
    ∀ (dbB : DBB) (dbA : DBA) (c : Caller) (tid now : Nat) (reason : Option String),
      c.role = "BO" → (reason = none ∨ reason = some "") →
      (RouteB.approve dbB c tid ⟨"rejected", reason⟩ now = .error .validationError
        ∧ applyB dbB (.approve c tid ⟨"rejected", reason⟩ now) = dbB)
      ∧ (RouteA.approve dbA c tid ⟨"reject", none, reason⟩ now = .error .validationError
        ∧ applyA dbA (.approve c tid ⟨"reject", none, reason⟩ now) = dbA) := by
  intro dbB dbA c tid now reason hrole hreason
  have hrr : require_role ["BO"] c = true := by
    simp [require_role, hrole]
  rcases hreason with h | h <;> subst h <;>
    refine ⟨⟨?_, ?_⟩, ⟨?_, ?_⟩⟩ <;>
    simp [RouteB.approve, RouteA.approve, applyB, applyA, hrr,
      BOApprovalData.valid, ApprovalRequest.valid, optStrTruthy]

/-- Witness for C2: the amended claim applied at a concrete empty-string
reason against the one-record databases. -/
theorem C2_reject_empty_reason_witness :
    (RouteB.approve dbBsub boC 1 ⟨"rejected", some ""⟩ 5 = .error .validationError
      ∧ applyB dbBsub (.approve boC 1 ⟨"rejected", some ""⟩ 5) = dbBsub)
    ∧ (RouteA.approve dbAsub boC 1 ⟨"reject", none, some ""⟩ 5 = .error .validationError
      ∧ applyA dbAsub (.approve boC 1 ⟨"reject", none, some ""⟩ 5) = dbAsub) :=
  C2_reject_empty_reason dbBsub dbAsub boC 1 5 (some "") rfl (Or.inr rfl)

/-- **C7 (confirmed).** For a `VO` caller, get-by-id, update and delete
on a record whose submitter is a different user fail with `NotFound` —
the hypotheses also cover a nonexistent id (vacuously), so the error is
literally the same in both cases — and never with `PermissionDenied`.
The `server_new.py` update route behaves the same way. -/
theorem C7_other_submitters_record_not_found :
    ∀ (dbB : DBB) (dbA : DBA) (c : Caller) (tid : Nat) (u : VOUpdateData)
      (ua : UpdateA),
      c.role = "VO" → u.valid = true → ua.valid = true →
      (∀ r ∈ dbB.targets, r.id = tid → r.submitted_by ≠ c.id) →
      (∀ r ∈ dbA.targets, r.id = tid → r.is_active = true → r.submitted_by ≠ c.id) →
      RouteB.get dbB c tid = .error .notFound
      ∧ RouteB.update dbB c tid u = .error .notFound
      ∧ RouteB.delete dbB c tid = .error .notFound
      ∧ RouteA.update dbA c tid ua = .error .notFound := by
  intro dbB dbA c tid u ua hrole hu hua hB hA
  have hrr : require_role ["VO"] c = true := by simp [require_role, hrole]
  have hfindB : VOService.get_crop_target_by_id dbB tid c.id = none := by
    simp only [VOService.get_crop_target_by_id, List.find?_eq_none]
    intro r hr
    simp only [Bool.and_eq_true, beq_iff_eq, not_and]
    intro hid
    exact fun hsub => hB r hr hid hsub
  refine ⟨?_, ?_, ?_, ?_⟩
  · simp [RouteB.get, hrr, hfindB]
  · simp [RouteB.update, VOService.update_crop_target, hrr, hu, hfindB]
  · simp [RouteB.delete, VOService.delete_crop_target, hrr, hfindB]
  · simp only [RouteA.update, hrr, hua, Bool.not_true, Bool.false_eq_true,
      if_false]
    cases hget : BaseService.get dbA tid with
    | none => simp [hget]
    | some r =>
        have hmem := List.mem_of_find?_eq_some hget
        have hpred := List.find?_some hget
        simp only [Bool.and_eq_true, beq_iff_eq] at hpred
        have hown : r.submitted_by ≠ c.id := hA r hmem hpred.1 hpred.2
        simp [hget, hown]

/-- Witness for C7: a second Village Officer probing user 1's records. -/
theorem C7_other_submitters_record_not_found_witness :
    RouteB.get dbBsub voC2 1 = .error .notFound
    ∧ RouteB.update dbBsub voC2 1 {} = .error .notFound
    ∧ RouteB.delete dbBsub voC2 1 = .error .notFound
    ∧ RouteA.update dbAsub voC2 1 {} = .error .notFound :=
  C7_other_submitters_record_not_found dbBsub dbAsub voC2 1 {} {} rfl rfl rfl
    (by decide) (by decide)

/-- A successful `approve_target` call found an active pending record and
returned it transformed by the model's `approve` method. -/
theorem approve_target_some (db : DBA) (tid aid : Nat) (remarks : Option String)
    (now : Nat) (ok : Bool) (t : CropTargetA) (db2 : DBA)
    (h : CropTargetService.approve_target db tid aid remarks now ok = (some t, db2)) :
    ∃ r, BaseService.get db tid = some r ∧ r.is_pending_approval = true
      ∧ t = r.approve aid remarks now := by
  unfold CropTargetService.approve_target at h
  split at h
  · exact absurd h (by simp)
  · rename_i r hget
    split at h
    · exact absurd h (by simp)
    · rename_i hpend
      simp only [Bool.not_eq_true', Bool.not_eq_false] at hpend
      split at h
      · simp only [Prod.mk.injEq, Option.some.injEq] at h
        exact ⟨r, hget, hpend, h.1.symm⟩
      · exact absurd h (by simp)

/-- **C3 counterexample.** The claim says a record whose status is not in
`{submitted, pending}` fails with `InvalidState`; but in the canonical
stack (`server_new.py`) a found, already-approved record is folded by
the route into the 404 "Crop target not found or not pending approval"
envelope — the not-found error, not the invalid-state one. -/
theorem C3_counterexample :
    RouteA.approve dbAapp boC 1 ⟨"approve", none, none⟩ 5 = .error .notFound
    ∧ Err.notFound ≠ Err.invalidState :=
  ⟨rfl, fun h => nomatch h⟩

/-- **C3 (corrected).** Approve requires role `BO` (any other role is
`PermissionDenied`); with a `BO` caller it succeeds exactly when the
record exists (active) and its status is in `{submitted, pending}`; in
the canonical stack a missing record and a found record whose status is
outside `{submitted, pending}` fail alike with the not-found error (the
route folds the service's `None` into its 404 envelope); on success it
records status `approved`, the approver id, the approval timestamp, and
the optional remarks (when truthy); and in the Flask implementation a
found record whose status is outside `{submitted, pending}` raises the
distinct invalid-state error
("Only submitted targets can be approved/rejected"). -/
theorem C3_approve_requirements :
    (∀ (dbA : DBA) (c : Caller) (tid : Nat) (b : ApprovalRequest) (now : Nat),
       c.role ≠ "BO" → RouteA.approve dbA c tid b now = .error .permissionDenied)
    ∧ (∀ (dbA : DBA) (c : Caller) (tid now : Nat) (remarks : Option String),
       c.role = "BO" →
       (ApprovalRequest.mk "approve" remarks none).valid = true →
       ((RouteA.approve dbA c tid ⟨"approve", remarks, none⟩ now).isOk = true
         ↔ (BaseService.get dbA tid).any (fun r => r.is_pending_approval) = true))
    ∧ (∀ (dbA : DBA) (c : Caller) (tid now : Nat) (remarks : Option String),
       c.role = "BO" →
       (ApprovalRequest.mk "approve" remarks none).valid = true →
       (BaseService.get dbA tid).any (fun r => r.is_pending_approval) = false →
       RouteA.approve dbA c tid ⟨"approve", remarks, none⟩ now = .error .notFound)
    ∧ (∀ (dbA : DBA) (c : Caller) (tid now : Nat) (b : ApprovalRequest)
        (t : CropTargetA) (db' : DBA),
       b.action = "approve" →
       RouteA.approve dbA c tid b now = .ok (t, db') →
       t.status = "approved" ∧ t.approved_by = some c.id ∧ t.approved_at = some now
       ∧ (optStrTruthy b.remarks = true → t.remarks = b.remarks))
    ∧ (∀ (dbB : DBB) (c : Caller) (tid now : Nat) (d : BOApprovalData)
        (r : CropTargetB),
       c.role = "BO" → d.valid = true →
       dbB.targets.find? (fun x => x.id == tid) = some r →
       r.status ≠ "submitted" →
       RouteB.approve dbB c tid d now = .error .invalidState) := by
  refine ⟨?_, ?_, ?_, ?_, ?_⟩
  · intro dbA c tid b now hne
    have : require_role ["BO"] c = false := by
      simp [require_role, List.contains]
      exact fun h => absurd h hne
    simp [RouteA.approve, this]
  · intro dbA c tid now remarks hrole hvalid
    have hrr : require_role ["BO"] c = true := by simp [require_role, hrole]
    simp only [RouteA.approve, hrr, hvalid, Bool.not_true, Bool.false_eq_true,
      if_false]
    cases hget : BaseService.get dbA tid with
    | none =>
        simp [CropTargetService.approve_target, hget, Except.isOk, Except.toBool]
    | some r =>
        by_cases hpend : r.is_pending_approval = true
        · simp [CropTargetService.approve_target, hget, hpend, Except.isOk,
            Except.toBool]
        · simp [CropTargetService.approve_target, hget, hpend, Except.isOk,
            Except.toBool]
  · intro dbA c tid now remarks hrole hvalid hnp
    have hrr : require_role ["BO"] c = true := by simp [require_role, hrole]
    simp only [RouteA.approve, hrr, hvalid, Bool.not_true, Bool.false_eq_true,
      if_false]
    cases hget : BaseService.get dbA tid with
    | none =>
        simp [CropTargetService.approve_target, hget]
    | some r =>
        rw [hget] at hnp
        simp only [Option.any_some] at hnp
        simp [CropTargetService.approve_target, hget, hnp]
  · intro dbA c tid now b t db' hact h
    unfold RouteA.approve at h
    split at h
    · exact absurd h (by simp)
    · split at h
      · exact absurd h (by simp)
      · rw [if_pos (by simp [hact])] at h
        cases hsrv : CropTargetService.approve_target dbA tid c.id b.remarks now true with
        | mk o db2 =>
          rw [hsrv] at h
          cases o with
          | none => exact absurd h (by simp)
          | some tw =>
            simp only [Except.ok.injEq, Prod.mk.injEq] at h
            obtain ⟨ht, _⟩ := h
            subst ht
            obtain ⟨r, hget, hpend, htw⟩ :=
              approve_target_some dbA tid c.id b.remarks now true tw db2 hsrv
            subst htw
            unfold CropTargetA.approve
            by_cases hr : optStrTruthy b.remarks = true <;> simp [hr]
  · intro dbB c tid now d r hrole hvalid hfind hstat
    have hrr : require_role ["BO"] c = true := by simp [require_role, hrole]
    simp [RouteB.approve, hrr, hvalid, BOService.approve_crop_target, hfind, hstat]

/-- Witness for C3: a wrong-role caller is refused; approving the
submitted fixture as the Block Officer succeeds with the claimed fields;
approving the already-approved canonical fixture is the not-found
error; approving the already-approved Flask fixture is an invalid-state
error. -/
theorem C3_approve_requirements_witness :
    RouteA.approve dbAsub voC 1 ⟨"approve", none, none⟩ 5 = .error .permissionDenied
    ∧ ((RouteA.approve dbAsub boC 1 ⟨"approve", none, none⟩ 5).isOk = true
        ↔ (BaseService.get dbAsub 1).any (fun r => r.is_pending_approval) = true)
    ∧ RouteA.approve dbAapp boC 1 ⟨"approve", none, none⟩ 5 = .error .notFound
    ∧ (C3resT.status = "approved" ∧ C3resT.approved_by = some boC.id
        ∧ C3resT.approved_at = some 5
        ∧ (optStrTruthy none = true → C3resT.remarks = none))
    ∧ RouteB.approve dbBapp boC 1 ⟨"approved", none⟩ 5 = .error .invalidState :=
  ⟨C3_approve_requirements.1 dbAsub voC 1 ⟨"approve", none, none⟩ 5 (by decide),
   C3_approve_requirements.2.1 dbAsub boC 1 5 none rfl rfl,
   C3_approve_requirements.2.2.1 dbAapp boC 1 5 none rfl rfl (by decide),
   C3_approve_requirements.2.2.2.1 dbAsub boC 1 5 ⟨"approve", none, none⟩ C3resT
     C3resDB rfl rfl,
   C3_approve_requirements.2.2.2.2 dbBapp boC 1 5 ⟨"approved", none⟩ rowBapprov
     rfl rfl rfl (by decide)⟩

/-- **C4 counterexample.** A caller other than the submitter who
resubmits gets the not-found error, not `PermissionDenied` (ownership is
folded into the lookup); and the canonical `submit_for_approval` refuses
a `rejected` record even for its own submitter (it accepts `draft`
only), contradicting the claimed success for status in
`{draft, rejected}`. -/
theorem C4_counterexample :
    RouteB.resubmit dbBsub voC2 1 5 = .error .notFound
    ∧ Err.notFound ≠ Err.permissionDenied
    ∧ RouteA.submit dbArej voC 1 5 = .error .notFound :=
  ⟨rfl, by decide, rfl⟩

/-- **C4 (amended).** The Flask resubmit succeeds exactly when the
caller owns the record and its status is in `{draft, rejected}`, and on
success sets status `submitted`, the submission timestamp, and clears
the rejection comments; a right-owner record in any other status fails
with `InvalidState`; a caller other than the submitter gets `NotFound`
(never `PermissionDenied`). The canonical `submit_for_approval` succeeds
exactly when the caller owns the active record and it is a `draft`. -/
theorem C4_submit_requirements :
    (∀ (dbB : DBB) (c : Caller) (tid now : Nat),
       c.role = "VO" →
       (RouteB.resubmit dbB c tid now).toOption.map Prod.fst
         = (VOService.get_crop_target_by_id dbB tid c.id).bind
             (fun ct => if ct.status == "draft" || ct.status == "rejected"
               then some { ct with status := "submitted",
                                   submitted_at := some now,
                                   rejection_comments := none }
               else none))
    ∧ (∀ (dbB : DBB) (c : Caller) (tid now : Nat),
       c.role = "VO" →
       (∀ r ∈ dbB.targets, r.id = tid → r.submitted_by ≠ c.id) →
       RouteB.resubmit dbB c tid now = .error .notFound)
    ∧ (∀ (dbB : DBB) (c : Caller) (tid now : Nat) (ct : CropTargetB),
       c.role = "VO" →
       VOService.get_crop_target_by_id dbB tid c.id = some ct →
       ct.status ≠ "draft" → ct.status ≠ "rejected" →
       RouteB.resubmit dbB c tid now = .error .invalidState)
    ∧ (∀ (dbA : DBA) (c : Caller) (tid now : Nat),
       c.role = "VO" →
       (RouteA.submit dbA c tid now).toOption.map Prod.fst
         = (BaseService.get dbA tid).bind
             (fun r => if r.submitted_by == c.id && r.status == "draft"
               then some { r with status := "submitted",
                                  submitted_at := some now }
               else none)) := by
  refine ⟨?_, ?_, ?_, ?_⟩
  · intro dbB c tid now hrole
    have hrr : require_role ["VO"] c = true := by simp [require_role, hrole]
    simp only [RouteB.resubmit, hrr, Bool.not_true, Bool.false_eq_true, if_false]
    cases hget : VOService.get_crop_target_by_id dbB tid c.id with
    | none => simp [VOService.resubmit_crop_target, hget, Except.toOption]
    | some ct =>
        by_cases hst : (ct.status == "draft" || ct.status == "rejected") = true
        · have hst' : ct.status = "draft" ∨ ct.status = "rejected" := by
            simpa using hst
          simp [VOService.resubmit_crop_target, hget, hst, Except.toOption, hst']
        · have hst' : ¬(ct.status = "draft" ∨ ct.status = "rejected") := by
            simpa using hst
          simp [VOService.resubmit_crop_target, hget, hst, Except.toOption, hst']
  · intro dbB c tid now hrole hown
    have hrr : require_role ["VO"] c = true := by simp [require_role, hrole]
    have hfind : VOService.get_crop_target_by_id dbB tid c.id = none := by
      simp only [VOService.get_crop_target_by_id, List.find?_eq_none]
      intro r hr
      simp only [Bool.and_eq_true, beq_iff_eq, not_and]
      intro hid
      exact fun hsub => hown r hr hid hsub
    simp [RouteB.resubmit, VOService.resubmit_crop_target, hrr, hfind]
  · intro dbB c tid now ct hrole hget h1 h2
    have hrr : require_role ["VO"] c = true := by simp [require_role, hrole]
    simp [RouteB.resubmit, VOService.resubmit_crop_target, hrr, hget, h1, h2]
  · intro dbA c tid now hrole
    have hrr : require_role ["VO"] c = true := by simp [require_role, hrole]
    simp only [RouteA.submit, hrr, Bool.not_true, Bool.false_eq_true, if_false]
    cases hget : BaseService.get dbA tid with
    | none => simp [CropTargetService.submit_for_approval, hget, Except.toOption]
    | some r =>
        by_cases hsub : (r.submitted_by == c.id) = true
        · by_cases hst : (r.status == "draft") = true
          · have hc : r.submitted_by = c.id ∧ r.status = "draft" := by
              constructor
              · simpa using hsub
              · simpa using hst
            simp [CropTargetService.submit_for_approval, hget, hsub, hst,
              CropTargetA.submit_for_approval, Except.toOption, hc]
          · have hc : ¬(r.submitted_by = c.id ∧ r.status = "draft") := by
              simp only [beq_iff_eq] at hst
              exact fun hand => hst hand.2
            simp [CropTargetService.submit_for_approval, hget, hsub, hst,
              Except.toOption, hc]
        · have hc : ¬(r.submitted_by = c.id ∧ r.status = "draft") := by
            simp only [beq_iff_eq] at hsub
            exact fun hand => hsub hand.1
          simp [CropTargetService.submit_for_approval, hget, hsub,
            Except.toOption, hc]

/-- Witness for C4: resubmitting the rejected Flask fixture as its owner
succeeds with the claimed fields; the wrong owner and wrong status cases
err as claimed; the canonical submit succeeds only from `draft`. -/
theorem C4_submit_requirements_witness :
    ((RouteB.resubmit dbBrej voC 1 7).toOption.map Prod.fst
      = (VOService.get_crop_target_by_id dbBrej 1 voC.id).bind
          (fun ct => if ct.status == "draft" || ct.status == "rejected"
            then some { ct with status := "submitted", submitted_at := some 7,
                                rejection_comments := none }
            else none))
    ∧ RouteB.resubmit dbBsub voC2 1 7 = .error .notFound
    ∧ RouteB.resubmit dbBsub voC 1 7 = .error .invalidState
    ∧ ((RouteA.submit dbArej voC 1 7).toOption.map Prod.fst
      = (BaseService.get dbArej 1).bind
          (fun r => if r.submitted_by == voC.id && r.status == "draft"
            then some { r with status := "submitted", submitted_at := some 7 }
            else none)) :=
  ⟨C4_submit_requirements.1 dbBrej voC 1 7 rfl,
   C4_submit_requirements.2.1 dbBsub voC2 1 7 rfl (by decide),
   C4_submit_requirements.2.2.1 dbBsub voC 1 7 rowBsub rfl rfl (by decide)
     (by decide),
   C4_submit_requirements.2.2.2 dbArej voC 1 7 rfl⟩

/-- **C5 counterexample.** A successful resubmit through the Flask
service writes no audit entry at all: the audit table is unchanged (and
empty) after the successful operation. -/
theorem C5_counterexample :
    (RouteB.resubmit dbBrej voC 1 7).isOk = true
    ∧ (applyB dbBrej (.resubmit voC 1 7)).audits = dbBrej.audits
    ∧ dbBrej.audits.length = 0 :=
  ⟨rfl, rfl, rfl⟩

/-- **C5 (amended).** In the canonical service implementation every
successful create/update/submit/approve/reject appends exactly one audit
entry with the corresponding action, in the same transaction as the
record mutation; when the commit fails, neither the mutation nor the
audit entry persists (the original database is returned). The Flask
services write no audit entries (see the counterexample). -/
theorem C5_audit_atomicity :
    (∀ (db : DBA) (d : CreateA) (uid now : Nat) (t : CropTargetA) (db' : DBA),
       CropTargetService.create_crop_target db d uid now true = (some t, db') →
       ∃ e, db'.audits = db.audits ++ [e] ∧ e.action = "CREATE"
         ∧ db'.targets = db.targets ++ [t])
    ∧ (∀ (db : DBA) (d : CreateA) (uid now : Nat),
       CropTargetService.create_crop_target db d uid now false = (none, db))
    ∧ (∀ (db : DBA) (id : Nat) (u : UpdateA) (uid : Nat) (t : CropTargetA)
        (db' : DBA),
       BaseService.update db id u (some uid) true = (some t, db') →
       ∃ e, db'.audits = db.audits ++ [e] ∧ e.action = "UPDATE"
         ∧ db'.targets = (db.replaceTarget t).targets)
    ∧ (∀ (db : DBA) (id : Nat) (u : UpdateA) (uid : Nat),
       BaseService.update db id u (some uid) false = (none, db))
    ∧ (∀ (db : DBA) (tid sid now : Nat) (t : CropTargetA) (db' : DBA),
       CropTargetService.submit_for_approval db tid sid now true = (some t, db') →
       ∃ e, db'.audits = db.audits ++ [e] ∧ e.action = "SUBMIT"
         ∧ db'.targets = (db.replaceTarget t).targets)
    ∧ (∀ (db : DBA) (tid sid now : Nat),
       CropTargetService.submit_for_approval db tid sid now false = (none, db))
    ∧ (∀ (db : DBA) (tid aid now : Nat) (remarks : Option String)
        (t : CropTargetA) (db' : DBA),
       CropTargetService.approve_target db tid aid remarks now true = (some t, db') →
       ∃ e, db'.audits = db.audits ++ [e] ∧ e.action = "APPROVE"
         ∧ db'.targets = (db.replaceTarget t).targets)
    ∧ (∀ (db : DBA) (tid aid now : Nat) (remarks : Option String),
       CropTargetService.approve_target db tid aid remarks now false = (none, db))
    ∧ (∀ (db : DBA) (tid aid now : Nat) (reason : String)
        (t : CropTargetA) (db' : DBA),
       CropTargetService.reject_target db tid aid reason now true = (some t, db') →
       ∃ e, db'.audits = db.audits ++ [e] ∧ e.action = "REJECT"
         ∧ db'.targets = (db.replaceTarget t).targets)
    ∧ (∀ (db : DBA) (tid aid now : Nat) (reason : String),
       CropTargetService.reject_target db tid aid reason now false = (none, db)) := by
  refine ⟨?_, ?_, ?_, ?_, ?_, ?_, ?_, ?_, ?_, ?_⟩
  · intro db d uid now t db' h
    unfold CropTargetService.create_crop_target at h
    rw [if_pos rfl] at h
    simp only [Prod.mk.injEq, Option.some.injEq] at h
    obtain ⟨ht, hdb⟩ := h
    subst ht; subst hdb
    exact ⟨_, rfl, rfl, rfl⟩
  · intro db d uid now
    unfold CropTargetService.create_crop_target
    simp
  · intro db id u uid t db' h
    unfold BaseService.update at h
    split at h
    · exact absurd h (by simp)
    · rw [if_pos rfl] at h
      simp only [Prod.mk.injEq, Option.some.injEq] at h
      obtain ⟨ht, hdb⟩ := h
      subst ht; subst hdb
      exact ⟨_, rfl, rfl, rfl⟩
  · intro db id u uid
    unfold BaseService.update
    split
    · rfl
    · simp
  · intro db tid sid now t db' h
    unfold CropTargetService.submit_for_approval at h
    split at h
    · exact absurd h (by simp)
    · split at h
      · exact absurd h (by simp)
      · split at h
        · exact absurd h (by simp)
        · rw [if_pos rfl] at h
          simp only [Prod.mk.injEq, Option.some.injEq] at h
          obtain ⟨ht, hdb⟩ := h
          subst ht; subst hdb
          exact ⟨_, rfl, rfl, rfl⟩
  · intro db tid sid now
    unfold CropTargetService.submit_for_approval
    split
    · rfl
    · split
      · rfl
      · split
        · rfl
        · simp
  · intro db tid aid now remarks t db' h
    unfold CropTargetService.approve_target at h
    split at h
    · exact absurd h (by simp)
    · split at h
      · exact absurd h (by simp)
      · rw [if_pos rfl] at h
        simp only [Prod.mk.injEq, Option.some.injEq] at h
        obtain ⟨ht, hdb⟩ := h
        subst ht; subst hdb
        exact ⟨_, rfl, rfl, rfl⟩
  · intro db tid aid now remarks
    unfold CropTargetService.approve_target
    split
    · rfl
    · split
      · rfl
      · simp
  · intro db tid aid now reason t db' h
    unfold CropTargetService.reject_target at h
    split at h
    · exact absurd h (by simp)
    · split at h
      · exact absurd h (by simp)
      · rw [if_pos rfl] at h
        simp only [Prod.mk.injEq, Option.some.injEq] at h
        obtain ⟨ht, hdb⟩ := h
        subst ht; subst hdb
        exact ⟨_, rfl, rfl, rfl⟩
  · intro db tid aid now reason
    unfold CropTargetService.reject_target
    split
    · rfl
    · split
      · rfl
      · simp

/-- Witness for C5: one audit entry of the corresponding action for each
of the five canonical operations, applied to concrete runs. -/
theorem C5_audit_atomicity_witness :
    (∃ e, C6resDB.audits = dbA0.audits ++ [e] ∧ e.action = "CREATE"
      ∧ C6resDB.targets = dbA0.targets ++ [C6resT])
    ∧ (∃ e, C6resDB2.audits = C6resDB.audits ++ [e] ∧ e.action = "UPDATE"
      ∧ C6resDB2.targets = (C6resDB.replaceTarget C6resT2).targets)
    ∧ (∃ e, C5subDB.audits = C6resDB.audits ++ [e] ∧ e.action = "SUBMIT"
      ∧ C5subDB.targets = (C6resDB.replaceTarget C5subT).targets)
    ∧ (∃ e, C3resDB.audits = dbAsub.audits ++ [e] ∧ e.action = "APPROVE"
      ∧ C3resDB.targets = (dbAsub.replaceTarget C3resT).targets)
    ∧ (∃ e, C5rejDB.audits = dbAsub.audits ++ [e] ∧ e.action = "REJECT"
      ∧ C5rejDB.targets = (dbAsub.replaceTarget C5rejT).targets) :=
  ⟨C5_audit_atomicity.1 dbA0 (createRice.withCallerLoc voC) 1 0 C6resT C6resDB rfl,
   C5_audit_atomicity.2.2.1 C6resDB 1 updFive 1 C6resT2 C6resDB2 rfl,
   C5_audit_atomicity.2.2.2.2.1 C6resDB 1 1 3 C5subT C5subDB rfl,
   C5_audit_atomicity.2.2.2.2.2.2.1 dbAsub 1 9 5 none C3resT C3resDB rfl,
   C5_audit_atomicity.2.2.2.2.2.2.2.2.1 dbAsub 1 9 5 "too small" C5rejT C5rejDB rfl⟩

/-- After a soft delete, every row still carrying the deleted id is the
replaced, inactive row. -/
theorem soft_delete_inactive (db : DBA) (tid : Nat) (uid : Option Nat)
    (r t : CropTargetA) (db' : DBA)
    (hget : BaseService.get db tid = some r)
    (h : BaseService.soft_delete db tid uid true = (some t, db')) :
    t = { r with is_active := false }
    ∧ db'.targets = db.targets.map
        (fun x => if x.id == r.id then { r with is_active := false } else x)
    ∧ db'.audits.take db.audits.length = db.audits
    ∧ (∀ x ∈ db'.targets, x.id = tid → x.is_active = false) := by
  have hid : r.id = tid ∧ r.is_active = true := by
    have := List.find?_some hget
    simpa using this
  unfold BaseService.soft_delete at h
  rw [hget] at h
  simp only [] at h
  rw [if_pos trivial] at h
  simp only [Prod.mk.injEq, Option.some.injEq] at h
  obtain ⟨ht, hdb⟩ := h
  subst ht; subst hdb
  have htargets : ∀ (dbx : DBA),
      dbx.targets = db.targets.map
        (fun x => if x.id == r.id then { r with is_active := false } else x) →
      ∀ x ∈ dbx.targets, x.id = tid → x.is_active = false := by
    intro dbx hdbx x hx hxid
    rw [hdbx] at hx
    simp only [List.mem_map] at hx
    obtain ⟨x0, _, hx0⟩ := hx
    by_cases hc : (x0.id == r.id) = true
    · rw [if_pos hc] at hx0
      subst hx0; rfl
    · rw [if_neg hc] at hx0
      subst hx0
      exact absurd (hxid.trans hid.1.symm) (by simpa using hc)
  cases uid with
  | some u =>
      refine ⟨rfl, by simp [AuditLog.log_action, DBA.replaceTarget],
        by simp [AuditLog.log_action, DBA.replaceTarget, List.take_left], ?_⟩
      exact htargets _ (by simp [AuditLog.log_action, DBA.replaceTarget])
  | none =>
      refine ⟨rfl, by simp [DBA.replaceTarget],
        by simp [DBA.replaceTarget], ?_⟩
      exact htargets _ (by simp [DBA.replaceTarget])

/-- **C10 (confirmed).** `soft_delete` rewrites only the targeted row,
setting just its `is_active` flag to `False`; afterwards the record is
invisible to every lookup (`get`, `get_by_field`, `get_all`, the pending
listing) and every mutation (`update`, `submit`, `approve`, `reject`)
returns `None` leaving the database unchanged. -/
theorem C10_soft_delete_frame_and_invisibility :
    ∀ (db : DBA) (tid uid : Nat) (r t : CropTargetA) (db' : DBA),
      BaseService.get db tid = some r →
      BaseService.soft_delete db tid (some uid) true = (some t, db') →
      t = { r with is_active := false }
      ∧ db'.targets = db.targets.map
          (fun x => if x.id == r.id then { r with is_active := false } else x)
      ∧ BaseService.get db' tid = none
      ∧ (∀ (α : Type) (inst : BEq α) (f : CropTargetA → α) (v : α)
          (x : CropTargetA),
          @BaseService.get_by_field α inst db' f v = some x → x.id ≠ tid)
      ∧ (∀ (skip limit : Nat) (fs : FiltersA) (x : CropTargetA),
          x ∈ BaseService.get_all db' skip limit fs → x.id ≠ tid)
      ∧ (∀ (u : UpdateA) (uid2 : Option Nat) (ok : Bool),
          BaseService.update db' tid u uid2 ok = (none, db'))
      ∧ (∀ (sid now : Nat) (ok : Bool),
          CropTargetService.submit_for_approval db' tid sid now ok = (none, db'))
      ∧ (∀ (aid now : Nat) (rem : Option String) (ok : Bool),
          CropTargetService.approve_target db' tid aid rem now ok = (none, db'))
      ∧ (∀ (aid now : Nat) (reason : String) (ok : Bool),
          CropTargetService.reject_target db' tid aid reason now ok = (none, db'))
      ∧ (∀ (skip limit : Nat) (pf : PendingFiltersA) (x : CropTargetA),
          x ∈ CropTargetService.get_pending_approvals db' skip limit pf →
          x.id ≠ tid) := by
  intro db tid uid r t db' hget h
  obtain ⟨ht, hframe, _, hinact⟩ := soft_delete_inactive db tid (some uid) r t db' hget h
  have hgetnone : BaseService.get db' tid = none := by
    simp only [BaseService.get, List.find?_eq_none]
    intro x hx
    simp only [Bool.and_eq_true, beq_iff_eq, not_and]
    intro hxid
    rw [hinact x hx hxid]
    simp
  refine ⟨ht, hframe, hgetnone, ?_, ?_, ?_, ?_, ?_, ?_, ?_⟩
  · intro α inst f v x hx hxid
    have hmem := List.mem_of_find?_eq_some hx
    have hpred := List.find?_some hx
    simp only [Bool.and_eq_true] at hpred
    have := hinact x hmem hxid
    rw [this] at hpred
    exact absurd hpred.2 (by simp)
  · intro skip limit fs x hx hxid
    have hx1 : x ∈ BaseService.ordered db' fs := by
      exact List.mem_of_mem_drop (List.mem_of_mem_take hx)
    have hx2 : x ∈ BaseService.filtered db' fs := by
      unfold BaseService.ordered at hx1
      exact ((BaseService.filtered db' fs).mergeSort_perm _).mem_iff.mp hx1
    unfold BaseService.filtered at hx2
    rw [List.mem_filter] at hx2
    obtain ⟨hmem, hpred⟩ := hx2
    simp only [Bool.and_eq_true] at hpred
    have := hinact x hmem hxid
    rw [this] at hpred
    exact absurd hpred.1 (by simp)
  · intro u uid2 ok
    unfold BaseService.update
    rw [hgetnone]
  · intro sid now ok
    unfold CropTargetService.submit_for_approval
    rw [hgetnone]
  · intro aid now rem ok
    unfold CropTargetService.approve_target
    rw [hgetnone]
  · intro aid now reason ok
    unfold CropTargetService.reject_target
    rw [hgetnone]
  · intro skip limit pf x hx hxid
    have hx1 := List.mem_of_mem_drop (List.mem_of_mem_take hx)
    have hx2 := (List.mergeSort_perm _ _).mem_iff.mp hx1
    rw [List.mem_filter] at hx2
    obtain ⟨hmem, hpred⟩ := hx2
    simp only [Bool.and_eq_true] at hpred
    have := hinact x hmem hxid
    rw [this] at hpred
    exact absurd hpred.1.2 (by simp)

/-- Witness for C10: soft-deleting the submitted fixture flips only its
active flag, and the record becomes invisible to reads and mutations. -/
theorem C10_soft_delete_frame_and_invisibility_witness :
    C10resT = { rowAsub with is_active := false }
    ∧ BaseService.get C10resDB 1 = none
    ∧ BaseService.update C10resDB 1 {} (some 1) true = (none, C10resDB)
    ∧ CropTargetService.submit_for_approval C10resDB 1 1 5 true = (none, C10resDB)
    ∧ CropTargetService.approve_target C10resDB 1 9 none 5 true = (none, C10resDB)
    ∧ CropTargetService.reject_target C10resDB 1 9 "reason" 5 true = (none, C10resDB) := by
  obtain ⟨h1, _, h3, _, _, h6, h7, h8, h9, _⟩ :=
    C10_soft_delete_frame_and_invisibility dbAsub 1 1 rowAsub C10resT C10resDB rfl rfl
  exact ⟨h1, h3, h6 {} (some 1) true, h7 1 5 true, h8 9 5 none true,
    h9 9 5 "reason" true⟩

/-- A keyed single-row replacement rewrites the `find?`-by-key result:
the targeted key now yields the replacement, other keys are untouched. -/
theorem find?_map_replace_key {α : Type} (key : α → Nat) (l : List α)
    (r' : α) (tid : Nat) :
    (l.map (fun t => if key t == key r' then r' else t)).find?
        (fun x => key x == tid)
      = if key r' == tid
        then (l.find? (fun x => key x == tid)).map (fun _ => r')
        else l.find? (fun x => key x == tid) := by
  rw [List.find?_map]
  have hp : ((fun x => key x == tid) ∘ (fun t => if key t == key r' then r' else t))
      = (fun x => key x == tid) := by
    funext t
    by_cases h : key t = key r'
    · simp [h]
    · simp [h]
  rw [hp]
  by_cases hr : key r' = tid
  · rw [if_pos (by simp [hr])]
    cases hf : l.find? (fun x => key x == tid) with
    | none => simp
    | some x =>
        have hx := List.find?_some hf
        simp only [beq_iff_eq] at hx
        simp [hx, hr]
  · rw [if_neg (by simp [hr])]
    cases hf : l.find? (fun x => key x == tid) with
    | none => simp
    | some x =>
        have hx := List.find?_some hf
        simp only [beq_iff_eq] at hx
        have hxr : ¬(key x = key r') := by rw [hx]; exact fun hc => hr hc.symm
        simp [hxr]

/-- Removing rows that cannot match the probe leaves `find?` unchanged. -/
theorem find?_filter_irrelevant {α : Type} (p q : α → Bool) (l : List α)
    (h : ∀ x, q x = false → p x = false) :
    (l.filter q).find? p = l.find? p := by
  induction l with
  | nil => rfl
  | cons a as ih =>
      by_cases hq : q a = true
      · rw [List.filter_cons_of_pos hq]
        by_cases hp : p a = true
        · rw [List.find?_cons_of_pos _ hp, List.find?_cons_of_pos _ hp]
        · rw [List.find?_cons_of_neg _ hp, List.find?_cons_of_neg _ hp, ih]
      · rw [List.filter_cons_of_neg (by simpa using hq)]
        have hp : ¬ (p a = true) := by
          rw [h a (by simpa using hq)]; simp
        rw [List.find?_cons_of_neg _ hp, ih]

/-- `replaceTarget` rewrites the status observed at the replaced id and
leaves every other id's status unchanged (System A). -/
theorem statusOfA_replaceTarget (db : DBA) (r' : CropTargetA) (tid : Nat) :
    statusOfA (db.replaceTarget r') tid
      = if r'.id = tid
        then (statusOfA db tid).map (fun _ => r'.status)
        else statusOfA db tid := by
  unfold statusOfA DBA.replaceTarget
  simp only []
  rw [find?_map_replace_key (fun r => r.id) db.targets r' tid]
  by_cases hr : r'.id = tid
  · rw [if_pos (by simpa using hr), if_pos hr]
    cases db.targets.find? (fun x => x.id == tid) <;> rfl
  · rw [if_neg (by simpa using hr), if_neg hr]

/-- `replaceTarget` preserves the id column of the table (System A). -/
theorem ids_replaceTargetA (db : DBA) (r' : CropTargetA) :
    (db.replaceTarget r').targets.map (fun r => r.id)
      = db.targets.map (fun r => r.id) := by
  unfold DBA.replaceTarget
  simp only [List.map_map]
  apply List.map_congr_left
  intro a _
  by_cases h : a.id = r'.id
  · simp [h]
  · simp [h]

/-- `replaceTarget` rewrites the status observed at the replaced id and
leaves every other id's status unchanged (System B). -/
theorem statusOfB_replaceTarget (db : DBB) (r' : CropTargetB) (tid : Nat) :
    statusOfB (db.replaceTarget r') tid
      = if r'.id = tid
        then (statusOfB db tid).map (fun _ => r'.status)
        else statusOfB db tid := by
  unfold statusOfB DBB.replaceTarget
  simp only []
  rw [find?_map_replace_key (fun r => r.id) db.targets r' tid]
  by_cases hr : r'.id = tid
  · rw [if_pos (by simpa using hr), if_pos hr]
    cases db.targets.find? (fun x => x.id == tid) <;> rfl
  · rw [if_neg (by simpa using hr), if_neg hr]

/-- `replaceTarget` preserves the id column of the table (System B). -/
theorem ids_replaceTargetB (db : DBB) (r' : CropTargetB) :
    (db.replaceTarget r').targets.map (fun r => r.id)
      = db.targets.map (fun r => r.id) := by
  unfold DBB.replaceTarget
  simp only [List.map_map]
  apply List.map_congr_left
  intro a _
  by_cases h : a.id = r'.id
  · simp [h]
  · simp [h]

/-- With unique primary keys, the row found by `BaseService.get` is the
row whose status `statusOfA` observes. -/
theorem get_statusOfA (db : DBA) (tid : Nat) (r : CropTargetA)
    (hnd : (db.targets.map (fun x => x.id)).Nodup)
    (h : BaseService.get db tid = some r) :
    statusOfA db tid = some r.status := by
  have hmem := List.mem_of_find?_eq_some h
  have hpred := List.find?_some h
  simp only [Bool.and_eq_true, beq_iff_eq] at hpred
  unfold statusOfA
  cases hf : db.targets.find? (fun x => x.id == tid) with
  | none =>
      rw [List.find?_eq_none] at hf
      exact absurd (show (r.id == tid) = true by simpa using hpred.1)
        (by simpa using hf r hmem)
  | some x =>
      have hxm := List.mem_of_find?_eq_some hf
      have hxp := List.find?_some hf
      simp only [beq_iff_eq] at hxp
      have hxr : x = r :=
        List.inj_on_of_nodup_map hnd hxm hmem (by rw [hxp, hpred.1])
      rw [hxr]
      rfl

/-- With unique primary keys, the row found by the owner-scoped Flask
lookup is the row whose status `statusOfB` observes. -/
theorem getById_statusOfB (db : DBB) (tid uidq : Nat) (r : CropTargetB)
    (hnd : (db.targets.map (fun x => x.id)).Nodup)
    (h : VOService.get_crop_target_by_id db tid uidq = some r) :
    statusOfB db tid = some r.status := by
  have hmem := List.mem_of_find?_eq_some h
  have hpred := List.find?_some h
  simp only [Bool.and_eq_true, beq_iff_eq] at hpred
  unfold statusOfB
  cases hf : db.targets.find? (fun x => x.id == tid) with
  | none =>
      rw [List.find?_eq_none] at hf
      exact absurd (show (r.id == tid) = true by simpa using hpred.1)
        (by simpa using hf r hmem)
  | some x =>
      have hxm := List.mem_of_find?_eq_some hf
      have hxp := List.find?_some hf
      simp only [beq_iff_eq] at hxp
      have hxr : x = r :=
        List.inj_on_of_nodup_map hnd hxm hmem (by rw [hxp, hpred.1])
      rw [hxr]
      rfl

/-- With unique primary keys, the row found by the Flask primary-key
lookup is the row whose status `statusOfB` observes. -/
theorem findId_statusOfB (db : DBB) (tid : Nat) (r : CropTargetB)
    (h : db.targets.find? (fun x => x.id == tid) = some r) :
    statusOfB db tid = some r.status := by
  unfold statusOfB
  rw [h]
  rfl

/-- Characterization of a successful `create_crop_target` call. -/
theorem create_someA (db : DBA) (d : CreateA) (uid now : Nat)
    (t : CropTargetA) (db' : DBA)
    (h : CropTargetService.create_crop_target db d uid now true = (some t, db')) :
    t = (d.toRow db.nextId uid now).calculate_metrics
    ∧ db'.targets = db.targets ++ [t] ∧ db'.nextId = db.nextId + 1 := by
  unfold CropTargetService.create_crop_target at h
  rw [if_pos rfl] at h
  simp only [Prod.mk.injEq, Option.some.injEq] at h
  obtain ⟨ht, hdb⟩ := h
  subst ht; subst hdb
  exact ⟨rfl, by simp [AuditLog.log_action], by simp [AuditLog.log_action]⟩

/-- Characterization of a successful `BaseService.update` call. -/
theorem update_someA (db : DBA) (id : Nat) (u : UpdateA) (uidq : Option Nat)
    (ok : Bool) (t : CropTargetA) (db' : DBA)
    (h : BaseService.update db id u uidq ok = (some t, db')) :
    ∃ r, BaseService.get db id = some r ∧ t = r.applyUpdate u
      ∧ db'.targets = (db.replaceTarget t).targets ∧ db'.nextId = db.nextId := by
  unfold BaseService.update at h
  split at h
  · exact absurd h (by simp)
  · rename_i r hget
    cases ok with
    | false => exact absurd h (by cases uidq <;> simp)
    | true =>
        cases uidq with
        | none =>
            injection h with h1 h2
            injection h1 with h1
            subst h1; subst h2
            exact ⟨r, hget, rfl, rfl, rfl⟩
        | some uid0 =>
            injection h with h1 h2
            injection h1 with h1
            subst h1; subst h2
            exact ⟨r, hget, rfl, by simp [AuditLog.log_action],
              by simp [AuditLog.log_action, DBA.replaceTarget]⟩

/-- Characterization of a successful `submit_for_approval` call. -/
theorem submit_someA (db : DBA) (tid sid now : Nat) (ok : Bool)
    (t : CropTargetA) (db' : DBA)
    (h : CropTargetService.submit_for_approval db tid sid now ok = (some t, db')) :
    ∃ r, BaseService.get db tid = some r ∧ r.submitted_by = sid
      ∧ r.status = "draft"
      ∧ t = { r with status := "submitted", submitted_at := some now }
      ∧ db'.targets = (db.replaceTarget t).targets ∧ db'.nextId = db.nextId := by
  unfold CropTargetService.submit_for_approval at h
  split at h
  · exact absurd h (by simp)
  · rename_i r hget
    split at h
    · exact absurd h (by simp)
    · split at h
      · exact absurd h (by simp)
      · rename_i hsub hst
        simp only [Bool.not_eq_true', Bool.not_eq_false, beq_iff_eq] at hsub hst
        split at h
        · simp only [Prod.mk.injEq, Option.some.injEq] at h
          obtain ⟨ht, hdb⟩ := h
          subst ht; subst hdb
          refine ⟨r, hget, hsub, hst, ?_, by simp [AuditLog.log_action],
            by simp [AuditLog.log_action, DBA.replaceTarget]⟩
          unfold CropTargetA.submit_for_approval
          rw [if_pos (by simp [hst])]
        · exact absurd h (by simp)

/-- Characterization of a successful `approve_target` call, including
its effect on the stored table. -/
theorem approve_someA (db : DBA) (tid aid : Nat) (remarks : Option String)
    (now : Nat) (ok : Bool) (t : CropTargetA) (db' : DBA)
    (h : CropTargetService.approve_target db tid aid remarks now ok = (some t, db')) :
    ∃ r, BaseService.get db tid = some r ∧ r.is_pending_approval = true
      ∧ t = r.approve aid remarks now
      ∧ db'.targets = (db.replaceTarget t).targets ∧ db'.nextId = db.nextId := by
  unfold CropTargetService.approve_target at h
  split at h
  · exact absurd h (by simp)
  · rename_i r hget
    split at h
    · exact absurd h (by simp)
    · rename_i hpend
      simp only [Bool.not_eq_true', Bool.not_eq_false] at hpend
      split at h
      · simp only [Prod.mk.injEq, Option.some.injEq] at h
        obtain ⟨ht, hdb⟩ := h
        subst ht; subst hdb
        exact ⟨r, hget, hpend, rfl, by simp [AuditLog.log_action],
          by simp [AuditLog.log_action, DBA.replaceTarget]⟩
      · exact absurd h (by simp)

/-- Characterization of a successful `reject_target` call. -/
theorem reject_someA (db : DBA) (tid aid : Nat) (reason : String)
    (now : Nat) (ok : Bool) (t : CropTargetA) (db' : DBA)
    (h : CropTargetService.reject_target db tid aid reason now ok = (some t, db')) :
    ∃ r, BaseService.get db tid = some r ∧ r.is_pending_approval = true
      ∧ t = r.reject aid reason now
      ∧ db'.targets = (db.replaceTarget t).targets ∧ db'.nextId = db.nextId := by
  unfold CropTargetService.reject_target at h
  split at h
  · exact absurd h (by simp)
  · rename_i r hget
    split at h
    · exact absurd h (by simp)
    · rename_i hpend
      simp only [Bool.not_eq_true', Bool.not_eq_false] at hpend
      split at h
      · simp only [Prod.mk.injEq, Option.some.injEq] at h
        obtain ⟨ht, hdb⟩ := h
        subst ht; subst hdb
        exact ⟨r, hget, hpend, rfl, by simp [AuditLog.log_action],
          by simp [AuditLog.log_action, DBA.replaceTarget]⟩
      · exact absurd h (by simp)

/-- Characterization of a successful `soft_delete` call. -/
theorem soft_delete_someA (db : DBA) (id : Nat) (uidq : Option Nat)
    (ok : Bool) (t : CropTargetA) (db' : DBA)
    (h : BaseService.soft_delete db id uidq ok = (some t, db')) :
    ∃ r, BaseService.get db id = some r ∧ t = { r with is_active := false }
      ∧ db'.targets = (db.replaceTarget t).targets ∧ db'.nextId = db.nextId := by
  unfold BaseService.soft_delete at h
  split at h
  · exact absurd h (by simp)
  · rename_i r hget
    cases ok with
    | false => exact absurd h (by cases uidq <;> simp)
    | true =>
        cases uidq with
        | none =>
            injection h with h1 h2
            injection h1 with h1
            subst h1; subst h2
            exact ⟨r, hget, rfl, rfl, rfl⟩
        | some uid0 =>
            injection h with h1 h2
            injection h1 with h1
            subst h1; subst h2
            exact ⟨r, hget, rfl, by simp [AuditLog.log_action],
              by simp [AuditLog.log_action, DBA.replaceTarget]⟩

/-- A successful create route call is a successful service call on the
location-injected payload. -/
theorem routeA_create_ok (db : DBA) (c : Caller) (d : CreateA) (now : Nat)
    (t : CropTargetA) (db' : DBA)
    (h : RouteA.create db c d now = .ok (t, db')) :
    CropTargetService.create_crop_target db (d.withCallerLoc c) c.id now true
      = (some t, db') := by
  unfold RouteA.create at h
  split at h
  · exact absurd h (by simp)
  · split at h
    · exact absurd h (by simp)
    · cases hsrv : CropTargetService.create_crop_target db (d.withCallerLoc c) c.id now true with
      | mk o db2 =>
          rw [hsrv] at h
          cases o with
          | none => exact absurd h (by simp)
          | some tw =>
              simp only [Except.ok.injEq, Prod.mk.injEq] at h
              rw [h.1, h.2]

/-- A successful update route call is a successful service call. -/
theorem routeA_update_ok (db : DBA) (c : Caller) (tid : Nat) (u : UpdateA)
    (t : CropTargetA) (db' : DBA)
    (h : RouteA.update db c tid u = .ok (t, db')) :
    BaseService.update db tid u (some c.id) true = (some t, db') := by
  unfold RouteA.update at h
  split at h
  · exact absurd h (by simp)
  · split at h
    · exact absurd h (by simp)
    · split at h
      · exact absurd h (by simp)
      · split at h
        · exact absurd h (by simp)
        · split at h
          · exact absurd h (by simp)
          · cases hsrv : BaseService.update db tid u (some c.id) true with
            | mk o db2 =>
                rw [hsrv] at h
                cases o with
                | none => exact absurd h (by simp)
                | some tw =>
                    simp only [Except.ok.injEq, Prod.mk.injEq] at h
                    rw [h.1, h.2]

/-- A successful submit route call is a successful service call. -/
theorem routeA_submit_ok (db : DBA) (c : Caller) (tid now : Nat)
    (t : CropTargetA) (db' : DBA)
    (h : RouteA.submit db c tid now = .ok (t, db')) :
    CropTargetService.submit_for_approval db tid c.id now true = (some t, db') := by
  unfold RouteA.submit at h
  split at h
  · exact absurd h (by simp)
  · cases hsrv : CropTargetService.submit_for_approval db tid c.id now true with
    | mk o db2 =>
        rw [hsrv] at h
        cases o with
        | none => exact absurd h (by simp)
        | some tw =>
            simp only [Except.ok.injEq, Prod.mk.injEq] at h
            rw [h.1, h.2]

/-- A successful approve route call is a successful approve-or-reject
service call. -/
theorem routeA_approve_ok (db : DBA) (c : Caller) (tid : Nat)
    (b : ApprovalRequest) (now : Nat) (t : CropTargetA) (db' : DBA)
    (h : RouteA.approve db c tid b now = .ok (t, db')) :
    CropTargetService.approve_target db tid c.id b.remarks now true = (some t, db')
    ∨ CropTargetService.reject_target db tid c.id (b.rejection_reason.getD "")
        now true = (some t, db') := by
  unfold RouteA.approve at h
  split at h
  · exact absurd h (by simp)
  · split at h
    · exact absurd h (by simp)
    · split at h
      · left
        cases hsrv : CropTargetService.approve_target db tid c.id b.remarks now true with
        | mk o db2 =>
            rw [hsrv] at h
            cases o with
            | none => exact absurd h (by simp)
            | some tw =>
                simp only [Except.ok.injEq, Prod.mk.injEq] at h
                rw [h.1, h.2]
      · split at h
        · exact absurd h (by simp)
        · right
          cases hsrv : CropTargetService.reject_target db tid c.id
              (b.rejection_reason.getD "") now true with
          | mk o db2 =>
              rw [hsrv] at h
              cases o with
              | none => exact absurd h (by simp)
              | some tw =>
                  simp only [Except.ok.injEq, Prod.mk.injEq] at h
                  rw [h.1, h.2]

/-- A successful soft-delete route call is a successful service call. -/
theorem routeA_softDelete_ok (db : DBA) (c : Caller) (tid : Nat)
    (t : CropTargetA) (db' : DBA)
    (h : RouteA.softDelete db c tid = .ok (t, db')) :
    BaseService.soft_delete db tid (some c.id) true = (some t, db') := by
  unfold RouteA.softDelete at h
  split at h
  · exact absurd h (by simp)
  · cases hsrv : BaseService.soft_delete db tid (some c.id) true with
    | mk o db2 =>
        rw [hsrv] at h
        cases o with
        | none => exact absurd h (by simp)
        | some tw =>
            simp only [Except.ok.injEq, Prod.mk.injEq] at h
            rw [h.1, h.2]

/-- Characterization of a successful Flask create route call. -/
theorem routeB_create_ok (db : DBB) (c : Caller) (d : VOCreateData) (now : Nat)
    (t : CropTargetB) (db' : DBB)
    (h : RouteB.create db c d now = .ok (t, db')) :
    d.valid = true ∧ t.id = db.nextId ∧ t.status = d.status
    ∧ t.rejection_comments = none
    ∧ db'.targets = db.targets ++ [t] ∧ db'.nextId = db.nextId + 1 := by
  unfold RouteB.create at h
  split at h
  · exact absurd h (by simp)
  · split at h
    · exact absurd h (by simp)
    · rename_i hrole hvalid
      simp only [Bool.not_eq_true', Bool.not_eq_false] at hvalid
      unfold VOService.create_crop_target at h
      simp only [Except.ok.injEq, Prod.mk.injEq] at h
      obtain ⟨ht, hdb⟩ := h
      subst ht; subst hdb
      exact ⟨hvalid, rfl, rfl, rfl, rfl, rfl⟩

/-- Characterization of a successful Flask update route call. -/
theorem routeB_update_ok (db : DBB) (c : Caller) (tid : Nat) (u : VOUpdateData)
    (t : CropTargetB) (db' : DBB)
    (h : RouteB.update db c tid u = .ok (t, db')) :
    ∃ ct, VOService.get_crop_target_by_id db tid c.id = some ct
      ∧ ct.can_edit = true
      ∧ t = (if (ct.applyUpdate u).status == "rejected"
             then { ct.applyUpdate u with rejection_comments := none }
             else ct.applyUpdate u)
      ∧ db'.targets = (db.replaceTarget t).targets ∧ db'.nextId = db.nextId := by
  unfold RouteB.update at h
  split at h
  · exact absurd h (by simp)
  · split at h
    · exact absurd h (by simp)
    · unfold VOService.update_crop_target at h
      split at h
      · exact absurd h (by simp)
      · rename_i ct hget
        split at h
        · exact absurd h (by simp)
        · rename_i hedit
          simp only [Bool.not_eq_true', Bool.not_eq_false] at hedit
          simp only [Except.ok.injEq, Prod.mk.injEq] at h
          obtain ⟨ht, hdb⟩ := h
          subst ht; subst hdb
          exact ⟨ct, hget, hedit, rfl, rfl, rfl⟩

/-- Characterization of a successful Flask resubmit route call. -/
theorem routeB_resubmit_ok (db : DBB) (c : Caller) (tid now : Nat)
    (t : CropTargetB) (db' : DBB)
    (h : RouteB.resubmit db c tid now = .ok (t, db')) :
    ∃ ct, VOService.get_crop_target_by_id db tid c.id = some ct
      ∧ (ct.status = "draft" ∨ ct.status = "rejected")
      ∧ t = { ct with status := "submitted", submitted_at := some now,
                      rejection_comments := none }
      ∧ db'.targets = (db.replaceTarget t).targets ∧ db'.nextId = db.nextId := by
  unfold RouteB.resubmit at h
  split at h
  · exact absurd h (by simp)
  · unfold VOService.resubmit_crop_target at h
    split at h
    · exact absurd h (by simp)
    · rename_i ct hget
      split at h
      · exact absurd h (by simp)
      · rename_i hst
        simp only [Bool.not_eq_true', Bool.not_eq_false, Bool.or_eq_true,
          beq_iff_eq] at hst
        simp only [Except.ok.injEq, Prod.mk.injEq] at h
        obtain ⟨ht, hdb⟩ := h
        subst ht; subst hdb
        exact ⟨ct, hget, hst, rfl, rfl, rfl⟩

/-- Characterization of a successful Flask approve route call. -/
theorem routeB_approve_ok (db : DBB) (c : Caller) (tid : Nat)
    (d : BOApprovalData) (now : Nat) (t : CropTargetB) (db' : DBB)
    (h : RouteB.approve db c tid d now = .ok (t, db')) :
    d.valid = true
    ∧ ∃ ct, db.targets.find? (fun x => x.id == tid) = some ct
      ∧ ct.status = "submitted"
      ∧ t = { ct with status := d.status, approved_by := some c.id,
                      approved_at := some now,
                      rejection_comments :=
                        if d.status == "rejected" then d.rejection_comments
                        else none }
      ∧ db'.targets = (db.replaceTarget t).targets ∧ db'.nextId = db.nextId := by
  unfold RouteB.approve at h
  split at h
  · exact absurd h (by simp)
  · split at h
    · exact absurd h (by simp)
    · rename_i hrole hvalid
      simp only [Bool.not_eq_true', Bool.not_eq_false] at hvalid
      refine ⟨hvalid, ?_⟩
      unfold BOService.approve_crop_target at h
      split at h
      · exact absurd h (by simp)
      · rename_i ct hfind
        split at h
        · exact absurd h (by simp)
        · rename_i hst
          simp only [Bool.not_eq_true', Bool.not_eq_false, beq_iff_eq] at hst
          split at h
          · exact absurd h (by simp)
          · simp only [Except.ok.injEq, Prod.mk.injEq] at h
            obtain ⟨ht, hdb⟩ := h
            subst ht; subst hdb
            exact ⟨ct, hfind, hst, rfl, rfl, rfl⟩

/-- Characterization of a successful Flask delete route call. -/
theorem routeB_delete_ok (db : DBB) (c : Caller) (tid : Nat) (db' : DBB)
    (h : RouteB.delete db c tid = .ok db') :
    ∃ ct, VOService.get_crop_target_by_id db tid c.id = some ct
      ∧ ct.can_delete = true
      ∧ db'.targets = db.targets.filter (fun r => !(r.id == ct.id))
      ∧ db'.nextId = db.nextId := by
  unfold RouteB.delete at h
  split at h
  · exact absurd h (by simp)
  · unfold VOService.delete_crop_target at h
    split at h
    · exact absurd h (by simp)
    · rename_i ct hget
      split at h
      · exact absurd h (by simp)
      · rename_i hdel
        simp only [Bool.not_eq_true', Bool.not_eq_false] at hdel
        simp only [Except.ok.injEq] at h
        subst h
        exact ⟨ct, hget, hdel, rfl, rfl⟩

/-- `calculate_metrics` only derives `expected_production`; the workflow
columns are untouched. -/
theorem calculate_metrics_fields (r : CropTargetA) :
    (r.calculate_metrics).id = r.id ∧ (r.calculate_metrics).status = r.status
    ∧ (r.calculate_metrics).rejection_reason = r.rejection_reason := by
  unfold CropTargetA.calculate_metrics
  refine ⟨?_, ?_, ?_⟩ <;>
  · cases r.target_yield with
    | none => rfl
    | some y =>
        dsimp only
        by_cases h : (!(r.target_area == 0) && !(y == 0)) = true
        · rw [if_pos h]
        · rw [if_neg h]

/-- `CropTarget.approve` sets status `approved`, keeping the id and the
stored rejection reason. -/
theorem approveA_fields (r : CropTargetA) (aid : Nat) (rem : Option String)
    (now : Nat) :
    (r.approve aid rem now).id = r.id ∧ (r.approve aid rem now).status = "approved"
    ∧ (r.approve aid rem now).rejection_reason = r.rejection_reason := by
  unfold CropTargetA.approve
  by_cases h : optStrTruthy rem = true <;> simp [h]

/-- Well-formedness is preserved by every System A operation. -/
theorem WFA_applyA (db : DBA) (op : OpA) (h : WFA db) : WFA (applyA db op) := by
  obtain ⟨hnd, hlt⟩ := h
  have hrepl : ∀ (t : CropTargetA) (db2 : DBA),
      db2.targets = (db.replaceTarget t).targets → db2.nextId = db.nextId →
      WFA db2 := by
    intro t db2 htar hnx
    have hids : db2.targets.map (fun r => r.id) = db.targets.map (fun r => r.id) := by
      rw [htar, ids_replaceTargetA]
    constructor
    · rw [hids]; exact hnd
    · intro r hr
      have hmm : r.id ∈ db2.targets.map (fun r => r.id) :=
        List.mem_map_of_mem _ hr
      rw [hids] at hmm
      obtain ⟨y, hy, hk⟩ := List.mem_map.mp hmm
      rw [hnx, ← hk]
      exact hlt y hy
  have happend : ∀ (t : CropTargetA) (db2 : DBA),
      t.id = db.nextId → db2.targets = db.targets ++ [t] →
      db2.nextId = db.nextId + 1 → WFA db2 := by
    intro t db2 htid htar hnx
    constructor
    · rw [htar, List.map_append, List.nodup_append]
      refine ⟨hnd, by simp, ?_⟩
      intro a ha hb
      simp only [List.map_cons, List.map_nil, List.mem_singleton] at hb
      obtain ⟨y, hy, hk⟩ := List.mem_map.mp ha
      rw [hb, htid] at hk
      exact absurd (hk ▸ hlt y hy) (lt_irrefl _)
    · intro r hr
      rw [hnx]
      rw [htar] at hr
      rcases List.mem_append.mp hr with h1 | h1
      · exact Nat.lt_trans (hlt r h1) (Nat.lt_succ_self _)
      · rw [List.mem_singleton] at h1
        rw [h1, htid]
        exact Nat.lt_succ_self _
  cases op with
  | create c d now =>
      simp only [applyA]
      cases hroute : RouteA.create db c d now with
      | error e => exact ⟨hnd, hlt⟩
      | ok p =>
          obtain ⟨t, db'⟩ := p
          obtain ⟨ht, htar, hnx⟩ :=
            create_someA db _ c.id now t db' (routeA_create_ok db c d now t db' hroute)
          refine happend t db' ?_ htar hnx
          rw [ht]
          rw [(calculate_metrics_fields _).1]
          rfl
  | update c tid u =>
      simp only [applyA]
      cases hroute : RouteA.update db c tid u with
      | error e => exact ⟨hnd, hlt⟩
      | ok p =>
          obtain ⟨t, db'⟩ := p
          obtain ⟨r, _, _, htar, hnx⟩ :=
            update_someA db tid u (some c.id) true t db'
              (routeA_update_ok db c tid u t db' hroute)
          exact hrepl t db' htar hnx
  | submit c tid now =>
      simp only [applyA]
      cases hroute : RouteA.submit db c tid now with
      | error e => exact ⟨hnd, hlt⟩
      | ok p =>
          obtain ⟨t, db'⟩ := p
          obtain ⟨r, _, _, _, _, htar, hnx⟩ :=
            submit_someA db tid c.id now true t db'
              (routeA_submit_ok db c tid now t db' hroute)
          exact hrepl t db' htar hnx
  | approve c tid b now =>
      simp only [applyA]
      cases hroute : RouteA.approve db c tid b now with
      | error e => exact ⟨hnd, hlt⟩
      | ok p =>
          obtain ⟨t, db'⟩ := p
          rcases routeA_approve_ok db c tid b now t db' hroute with hsrv | hsrv
          · obtain ⟨r, _, _, _, htar, hnx⟩ :=
              approve_someA db tid c.id b.remarks now true t db' hsrv
            exact hrepl t db' htar hnx
          · obtain ⟨r, _, _, _, htar, hnx⟩ :=
              reject_someA db tid c.id (b.rejection_reason.getD "") now true t db' hsrv
            exact hrepl t db' htar hnx
  | softDelete c tid =>
      simp only [applyA]
      cases hroute : RouteA.softDelete db c tid with
      | error e => exact ⟨hnd, hlt⟩
      | ok p =>
          obtain ⟨t, db'⟩ := p
          obtain ⟨r, _, _, htar, hnx⟩ :=
            soft_delete_someA db tid (some c.id) true t db'
              (routeA_softDelete_ok db c tid t db' hroute)
          exact hrepl t db' htar hnx

/-- Well-formedness is preserved by every System B operation. -/
theorem WFB_applyB (db : DBB) (op : OpB) (h : WFB db) : WFB (applyB db op) := by
  obtain ⟨hnd, hlt⟩ := h
  have hrepl : ∀ (t : CropTargetB) (db2 : DBB),
      db2.targets = (db.replaceTarget t).targets → db2.nextId = db.nextId →
      WFB db2 := by
    intro t db2 htar hnx
    have hids : db2.targets.map (fun r => r.id) = db.targets.map (fun r => r.id) := by
      rw [htar, ids_replaceTargetB]
    constructor
    · rw [hids]; exact hnd
    · intro r hr
      have hmm : r.id ∈ db2.targets.map (fun r => r.id) :=
        List.mem_map_of_mem _ hr
      rw [hids] at hmm
      obtain ⟨y, hy, hk⟩ := List.mem_map.mp hmm
      rw [hnx, ← hk]
      exact hlt y hy
  cases op with
  | create c d now =>
      simp only [applyB]
      cases hroute : RouteB.create db c d now with
      | error e => exact ⟨hnd, hlt⟩
      | ok p =>
          obtain ⟨t, db'⟩ := p
          obtain ⟨_, htid, _, _, htar, hnx⟩ :=
            routeB_create_ok db c d now t db' hroute
          constructor
          · rw [htar, List.map_append, List.nodup_append]
            refine ⟨hnd, by simp, ?_⟩
            intro a ha hb
            simp only [List.map_cons, List.map_nil, List.mem_singleton] at hb
            obtain ⟨y, hy, hk⟩ := List.mem_map.mp ha
            rw [hb, htid] at hk
            exact absurd (hk ▸ hlt y hy) (lt_irrefl _)
          · intro r hr
            rw [hnx]
            rw [htar] at hr
            rcases List.mem_append.mp hr with h1 | h1
            · exact Nat.lt_trans (hlt r h1) (Nat.lt_succ_self _)
            · rw [List.mem_singleton] at h1
              rw [h1, htid]
              exact Nat.lt_succ_self _
  | update c tid u =>
      simp only [applyB]
      cases hroute : RouteB.update db c tid u with
      | error e => exact ⟨hnd, hlt⟩
      | ok p =>
          obtain ⟨t, db'⟩ := p
          obtain ⟨ct, _, _, _, htar, hnx⟩ := routeB_update_ok db c tid u t db' hroute
          exact hrepl t db' htar hnx
  | resubmit c tid now =>
      simp only [applyB]
      cases hroute : RouteB.resubmit db c tid now with
      | error e => exact ⟨hnd, hlt⟩
      | ok p =>
          obtain ⟨t, db'⟩ := p
          obtain ⟨ct, _, _, _, htar, hnx⟩ :=
            routeB_resubmit_ok db c tid now t db' hroute
          exact hrepl t db' htar hnx
  | approve c tid d now =>
      simp only [applyB]
      cases hroute : RouteB.approve db c tid d now with
      | error e => exact ⟨hnd, hlt⟩
      | ok p =>
          obtain ⟨t, db'⟩ := p
          obtain ⟨_, ct, _, _, _, htar, hnx⟩ :=
            routeB_approve_ok db c tid d now t db' hroute
          exact hrepl t db' htar hnx
  | delete c tid =>
      simp only [applyB]
      cases hroute : RouteB.delete db c tid with
      | error e => exact ⟨hnd, hlt⟩
      | ok db' =>
          obtain ⟨ct, _, _, htar, hnx⟩ := routeB_delete_ok db c tid db' hroute
          constructor
          · rw [htar]
            exact hnd.sublist (List.Sublist.map _ (List.filter_sublist _))
          · intro r hr
            rw [hnx]
            rw [htar] at hr
            exact hlt r (List.mem_of_mem_filter hr)

/-- `statusOfA` only reads the stored table. -/
theorem statusOfA_congr (db1 db2 : DBA) (tid : Nat)
    (h : db1.targets = db2.targets) : statusOfA db1 tid = statusOfA db2 tid := by
  unfold statusOfA
  rw [h]

/-- `statusOfB` only reads the stored table. -/
theorem statusOfB_congr (db1 db2 : DBB) (tid : Nat)
    (h : db1.targets = db2.targets) : statusOfB db1 tid = statusOfB db2 tid := by
  unfold statusOfB
  rw [h]

/-- One System A route operation either leaves a record's stored status
unchanged, or performs one legal transition of the workflow graph:
`draft → submitted`, pending → `approved`/`rejected`, or the birth of a
new `draft`. -/
theorem stepA_status (db : DBA) (op : OpA) (tid : Nat) (hwf : WFA db) :
    statusOfA (applyA db op) tid = statusOfA db tid
    ∨ (statusOfA db tid = some "draft"
        ∧ statusOfA (applyA db op) tid = some "submitted")
    ∨ ((statusOfA db tid = some "submitted" ∨ statusOfA db tid = some "pending")
        ∧ (statusOfA (applyA db op) tid = some "approved"
            ∨ statusOfA (applyA db op) tid = some "rejected"))
    ∨ (statusOfA db tid = none ∧ statusOfA (applyA db op) tid = some "draft") := by
  cases op with
  | create c d now =>
      simp only [applyA]
      cases hroute : RouteA.create db c d now with
      | error e => left; rfl
      | ok p =>
          obtain ⟨t, db'⟩ := p
          obtain ⟨ht, htar, hnx⟩ :=
            create_someA db _ c.id now t db' (routeA_create_ok db c d now t db' hroute)
          have hs' : statusOfA db' tid
              = ((db.targets ++ [t]).find? (fun x => x.id == tid)).map
                  (fun r => r.status) := by
            unfold statusOfA
            rw [htar]
          rw [List.find?_append] at hs'
          cases hf : db.targets.find? (fun x => x.id == tid) with
          | some x =>
              left
              rw [hs', hf]
              unfold statusOfA
              rw [hf]
              rfl
          | none =>
              have hsd : statusOfA db tid = none := by
                unfold statusOfA
                rw [hf]
                rfl
              have htst : t.status = "draft" := by
                rw [ht, (calculate_metrics_fields _).2.1]
                rfl
              by_cases hid : t.id = tid
              · right; right; right
                refine ⟨hsd, ?_⟩
                rw [hs', hf]
                simp [List.find?, hid, htst]
              · left
                rw [hs', hf, hsd]
                have hb : (t.id == tid) = false := by simp [hid]
                simp [List.find?, hb]
  | update c tid0 u =>
      simp only [applyA]
      cases hroute : RouteA.update db c tid0 u with
      | error e => left; rfl
      | ok p =>
          obtain ⟨t, db'⟩ := p
          obtain ⟨r, hget, ht, htar, hnx⟩ :=
            update_someA db tid0 u (some c.id) true t db'
              (routeA_update_ok db c tid0 u t db' hroute)
          left
          rw [statusOfA_congr db' (db.replaceTarget t) tid htar,
            statusOfA_replaceTarget]
          by_cases hid : t.id = tid
          · rw [if_pos hid]
            have hrid : r.id = tid0 := by
              have := List.find?_some hget
              simp only [Bool.and_eq_true, beq_iff_eq] at this
              exact this.1
            have htid0 : tid = tid0 := by
              rw [← hid, ht]
              exact hrid
            subst htid0
            rw [get_statusOfA db tid r hwf.1 hget]
            have hts : t.status = r.status := by rw [ht]; rfl
            simp [hts]
          · rw [if_neg hid]
  | submit c tid0 now =>
      simp only [applyA]
      cases hroute : RouteA.submit db c tid0 now with
      | error e => left; rfl
      | ok p =>
          obtain ⟨t, db'⟩ := p
          obtain ⟨r, hget, hown, hst, ht, htar, hnx⟩ :=
            submit_someA db tid0 c.id now true t db'
              (routeA_submit_ok db c tid0 now t db' hroute)
          rw [statusOfA_congr db' (db.replaceTarget t) tid htar,
            statusOfA_replaceTarget]
          by_cases hid : t.id = tid
          · right; left
            rw [if_pos hid]
            have hrid : r.id = tid0 := by
              have := List.find?_some hget
              simp only [Bool.and_eq_true, beq_iff_eq] at this
              exact this.1
            have htid0 : tid = tid0 := by
              rw [← hid, ht]
              exact hrid
            subst htid0
            rw [get_statusOfA db tid r hwf.1 hget]
            constructor
            · rw [hst]
            · have hts : t.status = "submitted" := by rw [ht]
              simp [hts]
          · left
            rw [if_neg hid]
  | approve c tid0 b now =>
      simp only [applyA]
      cases hroute : RouteA.approve db c tid0 b now with
      | error e => left; rfl
      | ok p =>
          obtain ⟨t, db'⟩ := p
          rcases routeA_approve_ok db c tid0 b now t db' hroute with hsrv | hsrv
          · obtain ⟨r, hget, hpend, ht, htar, hnx⟩ :=
              approve_someA db tid0 c.id b.remarks now true t db' hsrv
            rw [statusOfA_congr db' (db.replaceTarget t) tid htar,
              statusOfA_replaceTarget]
            by_cases hid : t.id = tid
            · right; right; left
              rw [if_pos hid]
              have hrid : r.id = tid0 := by
                have := List.find?_some hget
                simp only [Bool.and_eq_true, beq_iff_eq] at this
                exact this.1
              have htid0 : tid = tid0 := by
                rw [← hid, ht, (approveA_fields r c.id b.remarks now).1]
                exact hrid
              subst htid0
              rw [get_statusOfA db tid r hwf.1 hget]
              constructor
              · simp only [CropTargetA.is_pending_approval, Bool.or_eq_true,
                  beq_iff_eq] at hpend
                rcases hpend with hp | hp
                · left; rw [hp]
                · right; rw [hp]
              · left
                have hts : t.status = "approved" := by
                  rw [ht]
                  exact (approveA_fields r c.id b.remarks now).2.1
                simp [hts]
            · left
              rw [if_neg hid]
          · obtain ⟨r, hget, hpend, ht, htar, hnx⟩ :=
              reject_someA db tid0 c.id (b.rejection_reason.getD "") now true t db' hsrv
            rw [statusOfA_congr db' (db.replaceTarget t) tid htar,
              statusOfA_replaceTarget]
            by_cases hid : t.id = tid
            · right; right; left
              rw [if_pos hid]
              have hrid : r.id = tid0 := by
                have := List.find?_some hget
                simp only [Bool.and_eq_true, beq_iff_eq] at this
                exact this.1
              have htid0 : tid = tid0 := by
                rw [← hid, ht]
                exact hrid
              subst htid0
              rw [get_statusOfA db tid r hwf.1 hget]
              constructor
              · simp only [CropTargetA.is_pending_approval, Bool.or_eq_true,
                  beq_iff_eq] at hpend
                rcases hpend with hp | hp
                · left; rw [hp]
                · right; rw [hp]
              · right
                have hts : t.status = "rejected" := by
                  rw [ht]
                  rfl
                simp [hts]
            · left
              rw [if_neg hid]
  | softDelete c tid0 =>
      simp only [applyA]
      cases hroute : RouteA.softDelete db c tid0 with
      | error e => left; rfl
      | ok p =>
          obtain ⟨t, db'⟩ := p
          obtain ⟨r, hget, ht, htar, hnx⟩ :=
            soft_delete_someA db tid0 (some c.id) true t db'
              (routeA_softDelete_ok db c tid0 t db' hroute)
          left
          rw [statusOfA_congr db' (db.replaceTarget t) tid htar,
            statusOfA_replaceTarget]
          by_cases hid : t.id = tid
          · rw [if_pos hid]
            have hrid : r.id = tid0 := by
              have := List.find?_some hget
              simp only [Bool.and_eq_true, beq_iff_eq] at this
              exact this.1
            have htid0 : tid = tid0 := by
              rw [← hid, ht]
              exact hrid
            subst htid0
            rw [get_statusOfA db tid r hwf.1 hget]
            have hts : t.status = r.status := by rw [ht]
            simp [hts]
          · rw [if_neg hid]

/-- One System B route operation either leaves a record's stored status
unchanged, or performs one legal transition of the workflow graph:
`draft`/`rejected` → `submitted` (submit/resubmit), `submitted` →
`approved`/`rejected` (decision), birth as `draft`/`submitted` (create),
or deletion of a `draft`. -/
theorem stepB_status (db : DBB) (op : OpB) (tid : Nat) (hwf : WFB db) :
    statusOfB (applyB db op) tid = statusOfB db tid
    ∨ ((statusOfB db tid = some "draft" ∨ statusOfB db tid = some "rejected")
        ∧ statusOfB (applyB db op) tid = some "submitted")
    ∨ (statusOfB db tid = some "submitted"
        ∧ (statusOfB (applyB db op) tid = some "approved"
            ∨ statusOfB (applyB db op) tid = some "rejected"))
    ∨ (statusOfB db tid = none
        ∧ (statusOfB (applyB db op) tid = some "draft"
            ∨ statusOfB (applyB db op) tid = some "submitted"))
    ∨ (statusOfB db tid = some "draft" ∧ statusOfB (applyB db op) tid = none) := by
  cases op with
  | create c d now =>
      simp only [applyB]
      cases hroute : RouteB.create db c d now with
      | error e => left; rfl
      | ok p =>
          obtain ⟨t, db'⟩ := p
          obtain ⟨hvalid, htid, hst, _, htar, hnx⟩ :=
            routeB_create_ok db c d now t db' hroute
          have hs' : statusOfB db' tid
              = ((db.targets ++ [t]).find? (fun x => x.id == tid)).map
                  (fun r => r.status) := by
            unfold statusOfB
            rw [htar]
          rw [List.find?_append] at hs'
          cases hf : db.targets.find? (fun x => x.id == tid) with
          | some x =>
              left
              rw [hs', hf]
              unfold statusOfB
              rw [hf]
              rfl
          | none =>
              have hsd : statusOfB db tid = none := by
                unfold statusOfB
                rw [hf]
                rfl
              by_cases hid : t.id = tid
              · right; right; right; left
                refine ⟨hsd, ?_⟩
                have hds : d.status = "draft" ∨ d.status = "submitted" := by
                  simp only [VOCreateData.valid, Bool.and_eq_true, Bool.or_eq_true,
                    beq_iff_eq] at hvalid
                  exact hvalid.2
                rw [hs', hf]
                rcases hds with hd | hd
                · left; simp [List.find?, hid, hst, hd]
                · right; simp [List.find?, hid, hst, hd]
              · left
                rw [hs', hf, hsd]
                have hb : (t.id == tid) = false := by simp [hid]
                simp [List.find?, hb]
  | update c tid0 u =>
      simp only [applyB]
      cases hroute : RouteB.update db c tid0 u with
      | error e => left; rfl
      | ok p =>
          obtain ⟨t, db'⟩ := p
          obtain ⟨ct, hget, hedit, ht, htar, hnx⟩ :=
            routeB_update_ok db c tid0 u t db' hroute
          left
          rw [statusOfB_congr db' (db.replaceTarget t) tid htar,
            statusOfB_replaceTarget]
          have htst : t.status = ct.status := by
            rw [ht]
            by_cases hc : ((ct.applyUpdate u).status == "rejected") = true
            · rw [if_pos hc]
              rfl
            · rw [if_neg hc]
              rfl
          have htidct : t.id = ct.id := by
            rw [ht]
            by_cases hc : ((ct.applyUpdate u).status == "rejected") = true
            · rw [if_pos hc]
              rfl
            · rw [if_neg hc]
              rfl
          by_cases hid : t.id = tid
          · rw [if_pos hid]
            have hctid : ct.id = tid0 := by
              have := List.find?_some hget
              simp only [Bool.and_eq_true, beq_iff_eq] at this
              exact this.1
            have htid0 : tid = tid0 := by rw [← hid, htidct]; exact hctid
            subst htid0
            rw [getById_statusOfB db tid c.id ct hwf.1 hget]
            simp [htst]
          · rw [if_neg hid]
  | resubmit c tid0 now =>
      simp only [applyB]
      cases hroute : RouteB.resubmit db c tid0 now with
      | error e => left; rfl
      | ok p =>
          obtain ⟨t, db'⟩ := p
          obtain ⟨ct, hget, hst, ht, htar, hnx⟩ :=
            routeB_resubmit_ok db c tid0 now t db' hroute
          rw [statusOfB_congr db' (db.replaceTarget t) tid htar,
            statusOfB_replaceTarget]
          by_cases hid : t.id = tid
          · right; left
            rw [if_pos hid]
            have hctid : ct.id = tid0 := by
              have := List.find?_some hget
              simp only [Bool.and_eq_true, beq_iff_eq] at this
              exact this.1
            have htid0 : tid = tid0 := by
              rw [← hid, ht]
              exact hctid
            subst htid0
            rw [getById_statusOfB db tid c.id ct hwf.1 hget]
            constructor
            · rcases hst with hd | hd
              · left; rw [hd]
              · right; rw [hd]
            · have hts : t.status = "submitted" := by rw [ht]
              simp [hts]
          · left
            rw [if_neg hid]
  | approve c tid0 d now =>
      simp only [applyB]
      cases hroute : RouteB.approve db c tid0 d now with
      | error e => left; rfl
      | ok p =>
          obtain ⟨t, db'⟩ := p
          obtain ⟨hvalid, ct, hfind, hst, ht, htar, hnx⟩ :=
            routeB_approve_ok db c tid0 d now t db' hroute
          rw [statusOfB_congr db' (db.replaceTarget t) tid htar,
            statusOfB_replaceTarget]
          by_cases hid : t.id = tid
          · right; right; left
            rw [if_pos hid]
            have hctid : ct.id = tid0 := by
              have := List.find?_some hfind
              simp only [beq_iff_eq] at this
              exact this
            have htid0 : tid = tid0 := by
              rw [← hid, ht]
              exact hctid
            subst htid0
            rw [findId_statusOfB db tid ct hfind]
            refine ⟨by rw [hst], ?_⟩
            have hds : d.status = "approved" ∨ d.status = "rejected" := by
              simp only [BOApprovalData.valid, Bool.and_eq_true, Bool.or_eq_true,
                beq_iff_eq] at hvalid
              exact hvalid.1.1
            have hts : t.status = d.status := by rw [ht]
            rcases hds with hd | hd
            · left; simp [hts, hd]
            · right; simp [hts, hd]
          · left
            rw [if_neg hid]
  | delete c tid0 =>
      simp only [applyB]
      cases hroute : RouteB.delete db c tid0 with
      | error e => left; rfl
      | ok db' =>
          obtain ⟨ct, hget, hdel, htar, hnx⟩ := routeB_delete_ok db c tid0 db' hroute
          have hctid : ct.id = tid0 := by
            have := List.find?_some hget
            simp only [Bool.and_eq_true, beq_iff_eq] at this
            exact this.1
          by_cases hid : ct.id = tid
          · right; right; right; right
            have hdr : ct.status = "draft" := by
              simp only [CropTargetB.can_delete, beq_iff_eq] at hdel
              exact hdel
            constructor
            · have htid0 : tid = tid0 := by rw [← hid]; exact hctid
              subst htid0
              rw [getById_statusOfB db tid c.id ct hwf.1 hget, hdr]
            · unfold statusOfB
              rw [htar]
              have : (db.targets.filter (fun r => !(r.id == ct.id))).find?
                  (fun x => x.id == tid) = none := by
                rw [List.find?_eq_none]
                intro x hx
                have hq := List.of_mem_filter hx
                simp only [Bool.not_eq_true', beq_eq_false_iff_ne] at hq
                simp only [beq_iff_eq]
                rw [← hid]
                exact hq
              rw [this]
              rfl
          · left
            unfold statusOfB
            rw [htar]
            rw [find?_filter_irrelevant]
            intro x hx
            have hx' : x.id = ct.id := by simpa using hx
            have hxt : ¬(x.id = tid) := by rw [hx']; exact hid
            simp [hxt]

/-- In System A an approved status is absorbing across whole operation
sequences. -/
theorem approvedA_absorbing_run (db : DBA) (ops : List OpA) (tid : Nat)
    (hwf : WFA db) (h : statusOfA db tid = some "approved") :
    statusOfA (runA db ops) tid = some "approved" := by
  induction ops generalizing db with
  | nil => exact h
  | cons op ops ih =>
      refine ih (applyA db op) (WFA_applyA db op hwf) ?_
      rcases stepA_status db op tid hwf with h1 | ⟨h2, _⟩ | ⟨h2, _⟩ | ⟨h2, _⟩
      · rw [h1, h]
      · rw [h] at h2; simp at h2
      · rcases h2 with h2 | h2 <;> (rw [h] at h2; simp at h2)
      · rw [h] at h2; simp at h2

/-- In System B an approved status is absorbing across whole operation
sequences. -/
theorem approvedB_absorbing_run (db : DBB) (ops : List OpB) (tid : Nat)
    (hwf : WFB db) (h : statusOfB db tid = some "approved") :
    statusOfB (runB db ops) tid = some "approved" := by
  induction ops generalizing db with
  | nil => exact h
  | cons op ops ih =>
      refine ih (applyB db op) (WFB_applyB db op hwf) ?_
      rcases stepB_status db op tid hwf with
        h1 | ⟨h2, _⟩ | ⟨h2, _⟩ | ⟨h2, _⟩ | ⟨h2, _⟩
      · rw [h1, h]
      · rcases h2 with h2 | h2 <;> (rw [h] at h2; simp at h2)
      · rw [h] at h2; simp at h2
      · rw [h] at h2; simp at h2
      · rw [h] at h2; simp at h2

/-- **C1 (confirmed).** For both implementations and arbitrary finite
sequences of route-level workflow operations over a well-formed store:
a record observed `approved` can never be observed `submitted` again,
and no single operation takes a record from `draft` directly to
`approved` (the only step out of `draft` is to `submitted`, so approval
must pass through `submitted`). -/
theorem C1_status_transition_graph :
    (∀ (db : DBA) (tid : Nat) (ops : List OpA), WFA db →
       statusOfA db tid = some "approved" →
       statusOfA (runA db ops) tid ≠ some "submitted")
    ∧ (∀ (db : DBA) (tid : Nat) (op : OpA), WFA db →
       statusOfA db tid = some "draft" →
       statusOfA (applyA db op) tid ≠ some "approved")
    ∧ (∀ (db : DBB) (tid : Nat) (ops : List OpB), WFB db →
       statusOfB db tid = some "approved" →
       statusOfB (runB db ops) tid ≠ some "submitted")
    ∧ (∀ (db : DBB) (tid : Nat) (op : OpB), WFB db →
       statusOfB db tid = some "draft" →
       statusOfB (applyB db op) tid ≠ some "approved") := by
  refine ⟨?_, ?_, ?_, ?_⟩
  · intro db tid ops hwf h
    rw [approvedA_absorbing_run db ops tid hwf h]
    simp
  · intro db tid op hwf h
    rcases stepA_status db op tid hwf with h1 | ⟨_, h2⟩ | ⟨h2, _⟩ | ⟨h2, _⟩
    · rw [h1, h]; simp
    · rw [h2]; simp
    · rcases h2 with h2 | h2 <;> (rw [h] at h2; simp at h2)
    · rw [h] at h2; simp at h2
  · intro db tid ops hwf h
    rw [approvedB_absorbing_run db ops tid hwf h]
    simp
  · intro db tid op hwf h
    rcases stepB_status db op tid hwf with
      h1 | ⟨_, h2⟩ | ⟨h2, _⟩ | ⟨h2, _⟩ | ⟨_, h2⟩
    · rw [h1, h]; simp
    · rw [h2]; simp
    · rw [h] at h2; simp at h2
    · rw [h] at h2; simp at h2
    · rw [h2]; simp

/-- Witness for C1: a submit on an approved record and an approve on a
draft, in both implementations. -/
theorem C1_status_transition_graph_witness :
    statusOfA (runA dbAapp [OpA.submit voC 1 5]) 1 ≠ some "submitted"
    ∧ statusOfA (applyA dbAdraft (OpA.approve boC 1 ⟨"approve", none, none⟩ 5)) 1
        ≠ some "approved"
    ∧ statusOfB (runB dbBapp [OpB.resubmit voC 1 5]) 1 ≠ some "submitted"
    ∧ statusOfB (applyB dbBdraft (OpB.approve boC 1 ⟨"approved", none⟩ 5)) 1
        ≠ some "approved" :=
  ⟨C1_status_transition_graph.1 dbAapp 1 [OpA.submit voC 1 5]
     ⟨by decide, by decide⟩ rfl,
   C1_status_transition_graph.2.1 dbAdraft 1 (OpA.approve boC 1 ⟨"approve", none, none⟩ 5)
     ⟨by decide, by decide⟩ rfl,
   C1_status_transition_graph.2.2.1 dbBapp 1 [OpB.resubmit voC 1 5]
     ⟨by decide, by decide⟩ rfl,
   C1_status_transition_graph.2.2.2 dbBdraft 1 (OpB.approve boC 1 ⟨"approved", none⟩ 5)
     ⟨by decide, by decide⟩ rfl⟩

/-- Every row of a single-row replacement is an old row or the new row. -/
theorem mem_replaceTargetA (db : DBA) (t x : CropTargetA)
    (hx : x ∈ (db.replaceTarget t).targets) : x ∈ db.targets ∨ x = t := by
  unfold DBA.replaceTarget at hx
  simp only [List.mem_map] at hx
  obtain ⟨y, hy, hxy⟩ := hx
  by_cases hc : (y.id == t.id) = true
  · right
    rw [← hxy, if_pos hc]
  · left
    rw [← hxy, if_neg hc]
    exact hy

/-- Every row of a single-row replacement is an old row or the new row
(System B). -/
theorem mem_replaceTargetB (db : DBB) (t x : CropTargetB)
    (hx : x ∈ (db.replaceTarget t).targets) : x ∈ db.targets ∨ x = t := by
  unfold DBB.replaceTarget at hx
  simp only [List.mem_map] at hx
  obtain ⟨y, hy, hxy⟩ := hx
  by_cases hc : (y.id == t.id) = true
  · right
    rw [← hxy, if_pos hc]
  · left
    rw [← hxy, if_neg hc]
    exact hy

/-- A truthy optional string is not `none`. -/
theorem optStrTruthy_ne_none (c : Option String) (h : optStrTruthy c = true) :
    c ≠ none := by
  cases c with
  | none => exact absurd h (by simp [optStrTruthy])
  | some s => simp

/-- Each System A route operation preserves the C8 invariant on every
stored record. -/
theorem InvA_applyA (db : DBA) (op : OpA) (h : ∀ r ∈ db.targets, InvA r) :
    ∀ x ∈ (applyA db op).targets, InvA x := by
  have hfields : ∀ (t r : CropTargetA), t.status = r.status →
      t.rejection_reason = r.rejection_reason → InvA r → InvA t := by
    intro t r h1 h2 h3
    unfold InvA at *
    rw [h1, h2]
    exact h3
  cases op with
  | create c d now =>
      simp only [applyA]
      cases hroute : RouteA.create db c d now with
      | error e => exact h
      | ok p =>
          obtain ⟨t, db'⟩ := p
          obtain ⟨ht, htar, hnx⟩ :=
            create_someA db _ c.id now t db' (routeA_create_ok db c d now t db' hroute)
          intro x hx
          rw [htar] at hx
          rcases List.mem_append.mp hx with h1 | h1
          · exact h x h1
          · rw [List.mem_singleton] at h1
            subst h1
            unfold InvA
            rw [ht, (calculate_metrics_fields _).2.1, (calculate_metrics_fields _).2.2]
            simp [CreateA.toRow]
  | update c tid0 u =>
      simp only [applyA]
      cases hroute : RouteA.update db c tid0 u with
      | error e => exact h
      | ok p =>
          obtain ⟨t, db'⟩ := p
          obtain ⟨r, hget, ht, htar, hnx⟩ :=
            update_someA db tid0 u (some c.id) true t db'
              (routeA_update_ok db c tid0 u t db' hroute)
          intro x hx
          rw [htar] at hx
          rcases mem_replaceTargetA db t x hx with h1 | h1
          · exact h x h1
          · subst h1
            exact hfields x r (by rw [ht]; rfl) (by rw [ht]; rfl)
              (h r (List.mem_of_find?_eq_some hget))
  | submit c tid0 now =>
      simp only [applyA]
      cases hroute : RouteA.submit db c tid0 now with
      | error e => exact h
      | ok p =>
          obtain ⟨t, db'⟩ := p
          obtain ⟨r, hget, hown, hst, ht, htar, hnx⟩ :=
            submit_someA db tid0 c.id now true t db'
              (routeA_submit_ok db c tid0 now t db' hroute)
          intro x hx
          rw [htar] at hx
          rcases mem_replaceTargetA db t x hx with h1 | h1
          · exact h x h1
          · subst h1
            have hr := h r (List.mem_of_find?_eq_some hget)
            have hrs : r.rejection_reason = none := by
              by_contra hne
              have h2 := (hr).mp hne
              rw [h2] at hst
              simp at hst
            unfold InvA
            rw [show x.status = "submitted" by rw [ht],
              show x.rejection_reason = r.rejection_reason by rw [ht], hrs]
            simp
  | approve c tid0 b now =>
      simp only [applyA]
      cases hroute : RouteA.approve db c tid0 b now with
      | error e => exact h
      | ok p =>
          obtain ⟨t, db'⟩ := p
          rcases routeA_approve_ok db c tid0 b now t db' hroute with hsrv | hsrv
          · obtain ⟨r, hget, hpend, ht, htar, hnx⟩ :=
              approve_someA db tid0 c.id b.remarks now true t db' hsrv
            intro x hx
            rw [htar] at hx
            rcases mem_replaceTargetA db t x hx with h1 | h1
            · exact h x h1
            · subst h1
              have hr := h r (List.mem_of_find?_eq_some hget)
              simp only [CropTargetA.is_pending_approval, Bool.or_eq_true,
                beq_iff_eq] at hpend
              have hrs : r.rejection_reason = none := by
                by_contra hne
                have h2 := (hr).mp hne
                rcases hpend with hp | hp <;> (rw [h2] at hp; simp at hp)
              unfold InvA
              rw [ht, (approveA_fields r c.id b.remarks now).2.1,
                (approveA_fields r c.id b.remarks now).2.2, hrs]
              simp
          · obtain ⟨r, hget, hpend, ht, htar, hnx⟩ :=
              reject_someA db tid0 c.id (b.rejection_reason.getD "") now true t db' hsrv
            intro x hx
            rw [htar] at hx
            rcases mem_replaceTargetA db t x hx with h1 | h1
            · exact h x h1
            · subst h1
              unfold InvA
              rw [ht]
              simp [CropTargetA.reject]
  | softDelete c tid0 =>
      simp only [applyA]
      cases hroute : RouteA.softDelete db c tid0 with
      | error e => exact h
      | ok p =>
          obtain ⟨t, db'⟩ := p
          obtain ⟨r, hget, ht, htar, hnx⟩ :=
            soft_delete_someA db tid0 (some c.id) true t db'
              (routeA_softDelete_ok db c tid0 t db' hroute)
          intro x hx
          rw [htar] at hx
          rcases mem_replaceTargetA db t x hx with h1 | h1
          · exact h x h1
          · subst h1
            exact hfields x r (by rw [ht]) (by rw [ht])
              (h r (List.mem_of_find?_eq_some hget))

/-- Each System B route operation preserves the C8 invariant on every
stored record. -/
theorem InvB_applyB (db : DBB) (op : OpB) (h : ∀ r ∈ db.targets, InvB r) :
    ∀ x ∈ (applyB db op).targets, InvB x := by
  have hfields : ∀ (t r : CropTargetB), t.status = r.status →
      t.rejection_comments = r.rejection_comments → InvB r → InvB t := by
    intro t r h1 h2 h3
    unfold InvB at *
    rw [h1, h2]
    exact h3
  cases op with
  | create c d now =>
      simp only [applyB]
      cases hroute : RouteB.create db c d now with
      | error e => exact h
      | ok p =>
          obtain ⟨t, db'⟩ := p
          obtain ⟨hvalid, htid, hst, hcom, htar, hnx⟩ :=
            routeB_create_ok db c d now t db' hroute
          intro x hx
          rw [htar] at hx
          rcases List.mem_append.mp hx with h1 | h1
          · exact h x h1
          · rw [List.mem_singleton] at h1
            subst h1
            have hds : d.status = "draft" ∨ d.status = "submitted" := by
              simp only [VOCreateData.valid, Bool.and_eq_true, Bool.or_eq_true,
                beq_iff_eq] at hvalid
              exact hvalid.2
            unfold InvB
            rw [hcom, hst]
            rcases hds with hd | hd <;> simp [hd]
  | update c tid0 u =>
      simp only [applyB]
      cases hroute : RouteB.update db c tid0 u with
      | error e => exact h
      | ok p =>
          obtain ⟨t, db'⟩ := p
          obtain ⟨ct, hget, hedit, ht, htar, hnx⟩ :=
            routeB_update_ok db c tid0 u t db' hroute
          intro x hx
          rw [htar] at hx
          rcases mem_replaceTargetB db t x hx with h1 | h1
          · exact h x h1
          · subst h1
            have hcts : ct.status = "draft" := by
              simpa [CropTargetB.can_edit] using hedit
            have hcond : ¬(((ct.applyUpdate u).status == "rejected") = true) := by
              have hss : (ct.applyUpdate u).status = ct.status := rfl
              simp [hss, hcts]
            rw [ht, if_neg hcond]
            exact hfields (ct.applyUpdate u) ct rfl rfl
              (h ct (List.mem_of_find?_eq_some hget))
  | resubmit c tid0 now =>
      simp only [applyB]
      cases hroute : RouteB.resubmit db c tid0 now with
      | error e => exact h
      | ok p =>
          obtain ⟨t, db'⟩ := p
          obtain ⟨ct, hget, hst, ht, htar, hnx⟩ :=
            routeB_resubmit_ok db c tid0 now t db' hroute
          intro x hx
          rw [htar] at hx
          rcases mem_replaceTargetB db t x hx with h1 | h1
          · exact h x h1
          · subst h1
            unfold InvB
            rw [ht]
            simp
  | approve c tid0 d now =>
      simp only [applyB]
      cases hroute : RouteB.approve db c tid0 d now with
      | error e => exact h
      | ok p =>
          obtain ⟨t, db'⟩ := p
          obtain ⟨hvalid, ct, hfind, hst, ht, htar, hnx⟩ :=
            routeB_approve_ok db c tid0 d now t db' hroute
          intro x hx
          rw [htar] at hx
          rcases mem_replaceTargetB db t x hx with h1 | h1
          · exact h x h1
          · subst h1
            simp only [BOApprovalData.valid, Bool.and_eq_true, Bool.or_eq_true,
              Bool.not_eq_true', Bool.and_eq_false_iff, beq_iff_eq] at hvalid
            unfold InvB
            rw [ht]
            by_cases hd : d.status = "rejected"
            · have htr : optStrTruthy d.rejection_comments = true := by
                rcases hvalid.2 with hv | hv
                · exact absurd hd (by simpa using hv)
                · simpa using hv
              have : d.rejection_comments ≠ none :=
                optStrTruthy_ne_none _ htr
              simp [hd, this]
            · have hbe : (d.status == "rejected") = false := by
                simpa using hd
              simp [hbe, hd]
  | delete c tid0 =>
      simp only [applyB]
      cases hroute : RouteB.delete db c tid0 with
      | error e => exact h
      | ok db' =>
          obtain ⟨ct, hget, hdel, htar, hnx⟩ := routeB_delete_ok db c tid0 db' hroute
          intro x hx
          rw [htar] at hx
          exact h x (List.mem_of_mem_filter hx)

/-- **C8 (confirmed).** At every point of a record's lifetime — i.e.
after any finite sequence of route-level workflow operations over a
store in which the invariant holds (the empty store trivially
qualifies) — the stored rejection reason is non-null exactly when the
record's status is `rejected`, in both implementations: reject stores
the validated reason, and every transition out of `rejected`
(submit/resubmit, re-decision after resubmission) clears it. -/
theorem C8_rejection_reason_iff_rejected :
    (∀ (db : DBA) (ops : List OpA),
       (∀ r ∈ db.targets, InvA r) →
       ∀ r ∈ (runA db ops).targets, InvA r)
    ∧ (∀ (db : DBB) (ops : List OpB),
       (∀ r ∈ db.targets, InvB r) →
       ∀ r ∈ (runB db ops).targets, InvB r) := by
  constructor
  · intro db ops
    induction ops generalizing db with
    | nil => intro h; exact h
    | cons op ops ih => intro h; exact ih (applyA db op) (InvA_applyA db op h)
  · intro db ops
    induction ops generalizing db with
    | nil => intro h; exact h
    | cons op ops ih => intro h; exact ih (applyB db op) (InvB_applyB db op h)

/-- Witness for C8: the record left by a concrete reject (System A) and
a concrete resubmit of a rejected record (System B) both satisfy the
invariant. -/
theorem C8_rejection_reason_iff_rejected_witness :
    InvA C8rowA ∧ InvB C8rowB := by
  constructor
  · refine C8_rejection_reason_iff_rejected.1 dbAsub
      [OpA.approve boC 1 ⟨"reject", none, some "dry"⟩ 5] ?_ C8rowA ?_
    · intro r hr
      rw [show dbAsub.targets = [rowAsub] from rfl, List.mem_singleton] at hr
      subst hr
      unfold InvA
      simp [rowAsub]
    · show C8rowA ∈ _
      exact List.mem_singleton.mpr rfl
  · refine C8_rejection_reason_iff_rejected.2 dbBrej
      [OpB.resubmit voC 1 7] ?_ C8rowB ?_
    · intro r hr
      rw [show dbBrej.targets = [rowBrej] from rfl, List.mem_singleton] at hr
      subst hr
      unfold InvB
      simp [rowBrej, rowBsub]
    · show C8rowB ∈ _
      exact List.mem_singleton.mpr rfl

/-- Concatenating `n` consecutive chunks of size `P` reassembles a list
of length at most `n * P`. -/
theorem range_bind_take_drop {α : Type} (P : Nat) (_hP : 0 < P) :
    ∀ (n : Nat) (l : List α), l.length ≤ n * P →
    (List.range n).flatMap (fun i => (l.drop (i * P)).take P) = l := by
  intro n
  induction n with
  | zero =>
      intro l hl
      simp only [Nat.zero_mul, Nat.le_zero] at hl
      rw [List.length_eq_zero] at hl
      subst hl
      rfl
  | succ n ih =>
      intro l hl
      rw [List.range_succ_eq_map, List.flatMap_cons, List.flatMap_map]
      have hfun : (fun a : Nat => (l.drop (a.succ * P)).take P)
          = (fun i => ((l.drop P).drop (i * P)).take P) := by
        funext i
        rw [List.drop_drop]
        congr 2
        rw [Nat.succ_mul]
        omega
      rw [hfun]
      rw [ih (l.drop P) (by
        rw [List.length_drop]
        rw [Nat.succ_mul] at hl
        omega)]
      simp only [Nat.zero_mul, List.drop_zero]
      exact List.take_append_drop P l

/-- The ordered listing is a permutation of the filtered rows. -/
theorem ordered_perm (db : DBA) (filters : FiltersA) :
    (BaseService.ordered db filters).Perm (BaseService.filtered db filters) :=
  List.mergeSort_perm _ _

/-- The ordered listing has exactly `count` rows. -/
theorem ordered_length (db : DBA) (filters : FiltersA) :
    (BaseService.ordered db filters).length = BaseService.count db filters :=
  (ordered_perm db filters).length_eq

/-- With unique primary keys the ordered listing has no duplicates. -/
theorem ordered_nodup (db : DBA) (filters : FiltersA)
    (hnd : (db.targets.map (fun r => r.id)).Nodup) :
    (BaseService.ordered db filters).Nodup := by
  have h1 : db.targets.Nodup := hnd.of_map
  have h2 : (BaseService.filtered db filters).Nodup := h1.filter _
  exact (ordered_perm db filters).nodup_iff.mpr h2

/-- The items of a page are the corresponding window of the ordered
listing. -/
theorem get_paginated_items (db : DBA) (page P : Nat) (filters : FiltersA) :
    (BaseService.get_paginated db page P filters).items
      = ((BaseService.ordered db filters).drop ((page - 1) * P)).take P := rfl

/-- The ceiling page count covers the whole listing. -/
theorem count_le_pages_mul (c P : Nat) (hP : 0 < P) :
    c ≤ (c + P - 1) / P * P := by
  have h1 := Nat.div_add_mod (c + P - 1) P
  have h2 := Nat.mod_lt (c + P - 1) hP
  have h3 : P * ((c + P - 1) / P) = (c + P - 1) / P * P := Nat.mul_comm _ _
  omega

/-- Concatenating all pages of any positive page size reassembles the
entire ordered listing. -/
theorem concatPagesA_eq (db : DBA) (filters : FiltersA) (P : Nat) (hP : 0 < P) :
    concatPagesA db filters P = BaseService.ordered db filters := by
  unfold concatPagesA
  have hfun : (fun i => (BaseService.get_paginated db (i + 1) P filters).items)
      = (fun i => ((BaseService.ordered db filters).drop (i * P)).take P) := by
    funext i
    rw [get_paginated_items]
    simp
  rw [hfun]
  refine range_bind_take_drop P hP _ _ ?_
  rw [ordered_length]
  exact count_le_pages_mul _ P hP

/-- Distinct windows of a duplicate-free list are disjoint. -/
theorem pages_disjoint_lt {α : Type} (l : List α) (hnd : l.Nodup)
    (P i j : Nat) (hij : i < j) (x : α)
    (hx : x ∈ (l.drop (i * P)).take P) (_hP : 0 < P) :
    x ∉ (l.drop (j * P)).take P := by
  intro hx2
  have hm : (l.drop (i * P)).Nodup := hnd.sublist (List.drop_sublist _ _)
  have h1 : x ∈ (l.drop (i * P)).take P := hx
  have hxd : x ∈ l.drop (j * P) := List.mem_of_mem_take hx2
  have hge : i * P + P ≤ j * P := by
    have : (i + 1) * P ≤ j * P := Nat.mul_le_mul_right P hij
    rw [Nat.succ_mul] at this
    exact this
  have hsplit : l.drop (j * P)
      = ((l.drop (i * P)).drop P).drop (j * P - i * P - P) := by
    rw [List.drop_drop, List.drop_drop]
    congr 1
    omega
  rw [hsplit] at hxd
  have h2 : x ∈ (l.drop (i * P)).drop P := List.mem_of_mem_drop hxd
  exact (List.disjoint_take_drop hm (Nat.le_refl P)) h1 h2

/-- **C9 (confirmed).** For every fixed filtered query over a store with
unique primary keys and every page size `P ≥ 1`: concatenating all pages
of size `P` yields the same total item count as concatenating all pages
of size `2P` (both reassemble the whole ordered listing); no item
appears on two different pages; and the pagination metadata is
consistent — `total` is the concatenated item count, `pages * P` covers
`total`, a page within `1..pages` is exactly a nonempty page,
`has_next` holds exactly when the next page is nonempty, and `has_prev`
exactly when the page number exceeds 1. -/
theorem C9_pagination_consistent :
    ∀ (db : DBA) (filters : FiltersA) (P page : Nat),
      1 ≤ P →
      (db.targets.map (fun r => r.id)).Nodup →
      (concatPagesA db filters P).length = (concatPagesA db filters (2 * P)).length
      ∧ (∀ i j : Nat, 1 ≤ i → 1 ≤ j → i ≠ j →
          ∀ x ∈ (BaseService.get_paginated db i P filters).items,
            x ∉ (BaseService.get_paginated db j P filters).items)
      ∧ (BaseService.get_paginated db page P filters).total
          = (concatPagesA db filters P).length
      ∧ (BaseService.get_paginated db page P filters).total
          ≤ (BaseService.get_paginated db page P filters).pages * P
      ∧ (∀ k : Nat, 1 ≤ k →
          ((BaseService.get_paginated db k P filters).items = []
            ↔ (BaseService.get_paginated db page P filters).pages < k))
      ∧ ((BaseService.get_paginated db page P filters).has_next = true
          ↔ (BaseService.get_paginated db (page + 1) P filters).items ≠ [])
      ∧ ((BaseService.get_paginated db page P filters).has_prev = true
          ↔ 1 < page) := by
  intro db filters P page hP hnd
  have hP0 : 0 < P := hP
  have hlen := ordered_length db filters
  refine ⟨?_, ?_, ?_, ?_, ?_, ?_, ?_⟩
  · rw [concatPagesA_eq db filters P hP0,
      concatPagesA_eq db filters (2 * P) (by omega)]
  · intro i j hi hj hne x hx hx2
    rw [get_paginated_items] at hx hx2
    rcases Nat.lt_or_ge (i - 1) (j - 1) with hlt | hge
    · exact pages_disjoint_lt _ (ordered_nodup db filters hnd) P (i - 1) (j - 1)
        hlt x hx hP0 hx2
    · have hlt' : j - 1 < i - 1 := by omega
      exact pages_disjoint_lt _ (ordered_nodup db filters hnd) P (j - 1) (i - 1)
        hlt' x hx2 hP0 hx
  · rw [concatPagesA_eq db filters P hP0, hlen]
    rfl
  · exact count_le_pages_mul _ P hP0
  · intro k hk
    have hkP : k * P = (k - 1) * P + P := by
      rcases Nat.exists_eq_add_of_le hk with ⟨m, hm⟩
      subst hm
      have h1 : 1 + m - 1 = m := by omega
      rw [h1]
      ring
    rw [get_paginated_items]
    constructor
    · intro he
      rcases List.take_eq_nil_iff.mp he with h0 | h0
      · omega
      · have hle := List.drop_eq_nil_iff.mp h0
        rw [hlen] at hle
        show (BaseService.count db filters + P - 1) / P < k
        rw [Nat.div_lt_iff_lt_mul hP0]
        omega
    · intro hlt
      have hlt' : (BaseService.count db filters + P - 1) / P < k := hlt
      rw [Nat.div_lt_iff_lt_mul hP0] at hlt'
      have hc : (BaseService.ordered db filters).length ≤ (k - 1) * P := by
        rw [hlen]
        omega
      rw [List.drop_eq_nil_iff.mpr hc]
      simp
  · rw [get_paginated_items]
    simp only [Nat.add_sub_cancel]
    constructor
    · intro hn
      have hlt : page * P < BaseService.count db filters := of_decide_eq_true hn
      intro he
      rcases List.take_eq_nil_iff.mp he with h0 | h0
      · omega
      · have hle := List.drop_eq_nil_iff.mp h0
        rw [hlen] at hle
        omega
    · intro hne
      show decide (page * P < BaseService.count db filters) = true
      rw [decide_eq_true_eq]
      by_contra hge
      apply hne
      have hc : (BaseService.ordered db filters).length ≤ page * P := by
        rw [hlen]
        omega
      rw [List.drop_eq_nil_iff.mpr hc]
      simp
  · show decide (1 < page) = true ↔ 1 < page
    rw [decide_eq_true_eq]

/-- Witness for C9: the pagination consistency theorem instantiated at the
one-record store `dbAsub`, the empty filter, page size 1 and page 1. -/
theorem C9_pagination_consistent_witness :
    1 ≤ 1
    ∧ (dbAsub.targets.map (fun r => r.id)).Nodup
    ∧ ((concatPagesA dbAsub ([] : FiltersA) 1).length
          = (concatPagesA dbAsub ([] : FiltersA) (2 * 1)).length
      ∧ (∀ i j : Nat, 1 ≤ i → 1 ≤ j → i ≠ j →
          ∀ x ∈ (BaseService.get_paginated dbAsub i 1 ([] : FiltersA)).items,
            x ∉ (BaseService.get_paginated dbAsub j 1 ([] : FiltersA)).items)
      ∧ (BaseService.get_paginated dbAsub 1 1 ([] : FiltersA)).total
          = (concatPagesA dbAsub ([] : FiltersA) 1).length
      ∧ (BaseService.get_paginated dbAsub 1 1 ([] : FiltersA)).total
          ≤ (BaseService.get_paginated dbAsub 1 1 ([] : FiltersA)).pages * 1
      ∧ (∀ k : Nat, 1 ≤ k →
          ((BaseService.get_paginated dbAsub k 1 ([] : FiltersA)).items = []
            ↔ (BaseService.get_paginated dbAsub 1 1 ([] : FiltersA)).pages < k))
      ∧ ((BaseService.get_paginated dbAsub 1 1 ([] : FiltersA)).has_next = true
          ↔ (BaseService.get_paginated dbAsub (1 + 1) 1 ([] : FiltersA)).items ≠ [])
      ∧ ((BaseService.get_paginated dbAsub 1 1 ([] : FiltersA)).has_prev = true
          ↔ 1 < 1)) :=
  ⟨by decide, by decide,
    C9_pagination_consistent dbAsub ([] : FiltersA) 1 1 (by decide) (by decide)⟩
